import Mathlib

/-!
Verification of the time-windowed bucketing and resampling engine of the
Personal-Pennies chart generator (`.github/scripts/generate_charts.py`).

The engine works over Python `datetime` objects.  We embed them as a
structure of calendar fields (year, month, day, hour, minute, second);
microseconds are always zero in this system (timestamps are parsed from
`YYYY-MM-DD` dates and `HH:MM[:SS]` times, and every bucket-flooring rule
zeroes them), so the field is omitted.  Python compares datetimes
lexicographically on their fields, which is mirrored here.  Subtracting a
whole number of days (`timedelta(days=n)`, and `timedelta(hours=24)`,
which equals one civil day for naive datetimes) is embedded as `n`
single-day decrements.  Monetary values and percentages are embedded as
exact rationals.
-/

/-- Python `datetime.datetime` restricted to second precision. -/
structure Datetime where
  year : Nat
  month : Nat
  day : Nat
  hour : Nat
  minute : Nat
  second : Nat
deriving DecidableEq, Repr

/-- Python's lexicographic comparison of datetime fields (`datetime.__lt__`). -/
def Datetime.lt (a b : Datetime) : Prop :=
  a.year < b.year ∨ (a.year = b.year ∧
    (a.month < b.month ∨ (a.month = b.month ∧
      (a.day < b.day ∨ (a.day = b.day ∧
        (a.hour < b.hour ∨ (a.hour = b.hour ∧
          (a.minute < b.minute ∨ (a.minute = b.minute ∧
            a.second < b.second)))))))))

/-- Python `datetime.__le__`: lexicographic less-than, or equality. -/
def Datetime.le (a b : Datetime) : Prop :=
  Datetime.lt a b ∨ a = b

instance (a b : Datetime) : Decidable (Datetime.lt a b) := by
  unfold Datetime.lt; exact inferInstance

instance (a b : Datetime) : Decidable (Datetime.le a b) := by
  unfold Datetime.le; exact inferInstance

theorem Datetime.lt_iff (a b : Datetime) : Datetime.lt a b ↔
    (a.year < b.year ∨ (a.year = b.year ∧
      (a.month < b.month ∨ (a.month = b.month ∧
        (a.day < b.day ∨ (a.day = b.day ∧
          (a.hour < b.hour ∨ (a.hour = b.hour ∧
            (a.minute < b.minute ∨ (a.minute = b.minute ∧
              a.second < b.second)))))))))) := Iff.rfl

theorem Datetime.eq_iff (a b : Datetime) : a = b ↔
    (a.year = b.year ∧ a.month = b.month ∧ a.day = b.day ∧
     a.hour = b.hour ∧ a.minute = b.minute ∧ a.second = b.second) := by
  cases a; cases b; simp [Datetime.mk.injEq]

theorem Datetime.le_trans {a b c : Datetime}
    (h1 : Datetime.le a b) (h2 : Datetime.le b c) : Datetime.le a c := by
  rcases h1 with h1 | rfl
  · rcases h2 with h2 | rfl
    · left
      rw [Datetime.lt_iff] at h1 h2 ⊢
      omega
    · exact Or.inl h1
  · exact h2

theorem Datetime.le_total (a b : Datetime) :
    Datetime.le a b ∨ Datetime.le b a := by
  by_cases h : a = b
  · exact Or.inl (Or.inr h)
  · rw [Datetime.eq_iff] at h
    unfold Datetime.le
    rw [Datetime.lt_iff, Datetime.lt_iff, Datetime.eq_iff, Datetime.eq_iff]
    omega

instance : IsTrans Datetime Datetime.le := ⟨fun _ _ _ => Datetime.le_trans⟩

instance : IsTotal Datetime Datetime.le := ⟨Datetime.le_total⟩

theorem Datetime.lt_iff_le_not_eq (a b : Datetime) :
    Datetime.lt a b ↔ Datetime.le a b ∧ a ≠ b := by
  constructor
  · intro h
    refine ⟨Or.inl h, ?_⟩
    intro hEq
    rw [Datetime.eq_iff] at hEq
    rw [Datetime.lt_iff] at h
    omega
  · rintro ⟨h | rfl, hne⟩
    · exact h
    · exact absurd rfl hne

/-- Gregorian leap-year rule (Python `calendar.isleap`). -/
def isLeap (y : Nat) : Bool :=
  (y % 4 == 0 && y % 100 != 0) || y % 400 == 0

/-- Number of days in a month of the proleptic Gregorian calendar. -/
def monthLength (y m : Nat) : Nat :=
  if m = 2 then (if isLeap y then 29 else 28)
  else if m = 4 ∨ m = 6 ∨ m = 9 ∨ m = 11 then 30 else 31

/-- A structurally well-formed datetime: exactly the field ranges that a
Python `datetime` object can hold (year at least `MINYEAR = 1`). -/
def Datetime.Valid (dt : Datetime) : Prop :=
  1 ≤ dt.year ∧ 1 ≤ dt.month ∧ dt.month ≤ 12 ∧
  1 ≤ dt.day ∧ dt.day ≤ monthLength dt.year dt.month ∧
  dt.hour ≤ 23 ∧ dt.minute ≤ 59 ∧ dt.second ≤ 59

instance (dt : Datetime) : Decidable dt.Valid := by
  unfold Datetime.Valid; exact inferInstance

/-- Day count of a civil date (days since 0000-03-01, kept in `Nat`), the
standard era/year-of-era computation that underlies `datetime.toordinal`.
`1970-01-01` has day count `719468`. -/
def daysFromCivil (y m d : Nat) : Nat :=
  let yAdj := if m ≤ 2 then y - 1 else y
  let era := yAdj / 400
  let yoe := yAdj % 400
  let mp := if 3 ≤ m then m - 3 else m + 9
  let doy := (153 * mp + 2) / 5 + d - 1
  let doe := yoe * 365 + yoe / 4 - yoe / 100 + doy
  era * 146097 + doe

/-- Day count of a datetime's date part. -/
def Datetime.toDaysNat (dt : Datetime) : Nat :=
  daysFromCivil dt.year dt.month dt.day

/-- Python `datetime.weekday()`: Monday is `0`, Sunday is `6`.
`0001-01-01` (day count 306) is a Monday. -/
def Datetime.weekday (dt : Datetime) : Nat :=
  (dt.toDaysNat + 2) % 7

/-- The previous civil day (same time of day): the effect of
`date - timedelta(days=1)` on the calendar fields. -/
def Datetime.prevDay (dt : Datetime) : Datetime :=
  if 2 ≤ dt.day then { dt with day := dt.day - 1 }
  else if 2 ≤ dt.month then
    { dt with month := dt.month - 1, day := monthLength dt.year (dt.month - 1) }
  else { dt with year := dt.year - 1, month := 12, day := 31 }

/-- `date - timedelta(days=n)` as `n` single-day decrements. -/
def Datetime.subDays (dt : Datetime) : Nat → Datetime
  | 0 => dt
  | n + 1 => (dt.prevDay).subDays n

/-- `get_timeframe_range`: start of the look-back window for a timeframe,
measured backward from `end_date` (`timedelta(hours=24)` for `day`, whole
days otherwise; an unrecognized timeframe falls back to 30 days). -/
def get_timeframe_range (end_date : Datetime) (timeframe : String) : Datetime :=
  if timeframe = "day" then end_date.subDays 1
  else if timeframe = "week" then end_date.subDays 7
  else if timeframe = "month" then end_date.subDays 30
  else if timeframe = "quarter" then end_date.subDays 90
  else if timeframe = "year" then end_date.subDays 365
  else if timeframe = "5year" then end_date.subDays 1825
  else end_date.subDays 30

/-- `get_default_interval`: the default data point interval for a timeframe. -/
def get_default_interval (timeframe : String) : String :=
  if timeframe = "day" then "30min"
  else if timeframe = "week" then "30min"
  else if timeframe = "month" then "daily"
  else if timeframe = "quarter" then "weekly"
  else if timeframe = "year" then "weekly"
  else if timeframe = "5year" then "quarterly"
  else "daily"

/-- `get_bucket_key`: floors a datetime to the start of its containing
interval (a chain of `replace` calls in the source; the `weekly` case
first steps back to Monday via `date - timedelta(days=date.weekday())`). -/
def get_bucket_key (date : Datetime) (interval : String) : Datetime :=
  if interval = "30min" then
    { date with minute := (date.minute / 30) * 30, second := 0 }
  else if interval = "daily" then
    { date with hour := 0, minute := 0, second := 0 }
  else if interval = "weekly" then
    let days_since_monday := date.weekday
    let monday := date.subDays days_since_monday
    { monday with hour := 0, minute := 0, second := 0 }
  else if interval = "monthly" then
    { date with day := 1, hour := 0, minute := 0, second := 0 }
  else if interval = "quarterly" then
    let quarter_month := ((date.month - 1) / 3) * 3 + 1
    { date with month := quarter_month, day := 1, hour := 0, minute := 0, second := 0 }
  else if interval = "yearly" then
    { date with month := 1, day := 1, hour := 0, minute := 0, second := 0 }
  else
    { date with hour := 0, minute := 0, second := 0 }

/-- Two-digit zero padding, as produced by `strftime` numeric fields. -/
def pad2 (n : Nat) : String :=
  if n < 10 then "0" ++ toString n else toString n

/-- C-locale abbreviated month names (`strftime("%b")`). -/
def monthAbbr (m : Nat) : String :=
  ["Jan", "Feb", "Mar", "Apr", "May", "Jun",
   "Jul", "Aug", "Sep", "Oct", "Nov", "Dec"].getD (m - 1) ""

/-- C-locale abbreviated weekday names indexed by Python `weekday()`
(`strftime("%a")`). -/
def weekdayAbbr (w : Nat) : String :=
  ["Mon", "Tue", "Wed", "Thu", "Fri", "Sat", "Sun"].getD w ""

/-- One-based day of the year of a datetime's date part. -/
def Datetime.dayOfYear (dt : Datetime) : Nat :=
  ((List.range (dt.month - 1)).map (fun i => monthLength dt.year (i + 1))).sum + dt.day

/-- `strftime("%W")`: week of the year with Monday as the first day of the
week; days before the first Monday of the year fall in week 0. -/
def weekNumberW (dt : Datetime) : Nat :=
  (dt.dayOfYear - 1 + 7 - dt.weekday) / 7

/-- `format_date_label`: renders a datetime into a display label; an
explicit interval takes precedence over the timeframe default. -/
def format_date_label (date : Datetime) (timeframe : String)
    (interval : Option String) : String :=
  if interval = some "30min" then pad2 date.hour ++ ":" ++ pad2 date.minute
  else if interval = some "daily" then pad2 date.month ++ "/" ++ pad2 date.day
  else if interval = some "weekly" then
    "W" ++ pad2 (weekNumberW date) ++ " " ++ pad2 date.month ++ "/" ++ pad2 date.day
  else if interval = some "monthly" then monthAbbr date.month ++ " " ++ toString date.year
  else if interval = some "quarterly" then
    toString date.year ++ " Q" ++ toString ((date.month - 1) / 3 + 1)
  else if interval = some "yearly" then toString date.year
  else if timeframe = "day" then
    if date.hour ≠ 0 ∨ date.minute ≠ 0 then pad2 date.hour ++ ":" ++ pad2 date.minute
    else pad2 date.month ++ "/" ++ pad2 date.day
  else if timeframe = "week" then
    weekdayAbbr date.weekday ++ " " ++ pad2 date.month ++ "/" ++ pad2 date.day
  else if timeframe = "month" then pad2 date.month ++ "/" ++ pad2 date.day
  else if timeframe = "quarter" then pad2 date.month ++ "/" ++ pad2 date.day
  else if timeframe = "year" then monthAbbr date.month ++ " " ++ toString date.year
  else if timeframe = "5year" then
    toString date.year ++ " Q" ++ toString ((date.month - 1) / 3 + 1)
  else toString date.year ++ "-" ++ pad2 date.month ++ "-" ++ pad2 date.day

/-- Splitter worker: accumulates the current field in reverse. -/
def splitOnCharAux (sep : Char) : List Char → List Char → List (List Char)
  | [], acc => [acc.reverse]
  | c :: rest, acc =>
    if c = sep then acc.reverse :: splitOnCharAux sep rest []
    else splitOnCharAux sep rest (c :: acc)

/-- Python `str.split(sep)` on character lists (`"".split(sep) = [""]`). -/
def splitOnChar (sep : Char) (cs : List Char) : List (List Char) :=
  splitOnCharAux sep cs []

/-- Value of a string of decimal digits. -/
def natOfDigits (cs : List Char) : Nat :=
  cs.foldl (fun acc c => acc * 10 + (c.toNat - 48)) 0

/-- Parses a fixed-width, all-digit numeric field, as the ISO parser does. -/
def parseNatFixed (cs : List Char) (width : Nat) : Option Nat :=
  if cs.length = width ∧ cs.all Char.isDigit then some (natOfDigits cs)
  else none

/-- Parses the `YYYY-MM-DD` date part of an ISO string, validating field
ranges the way `datetime.fromisoformat` does. -/
def parseDatePart (cs : List Char) : Option (Nat × Nat × Nat) :=
  match splitOnChar '-' cs with
  | [ys, ms, ds] => do
    let y ← parseNatFixed ys 4
    let m ← parseNatFixed ms 2
    let d ← parseNatFixed ds 2
    if 1 ≤ y ∧ 1 ≤ m ∧ m ≤ 12 ∧ 1 ≤ d ∧ d ≤ monthLength y m then some (y, m, d)
    else none
  | _ => none

/-- Parses the `HH:MM` or `HH:MM:SS` time part of an ISO string, validating
field ranges the way `datetime.fromisoformat` does. -/
def parseTimePart (cs : List Char) : Option (Nat × Nat × Nat) :=
  match splitOnChar ':' cs with
  | [hs, ms] => do
    let h ← parseNatFixed hs 2
    let mi ← parseNatFixed ms 2
    if h ≤ 23 ∧ mi ≤ 59 then some (h, mi, 0) else none
  | [hs, ms, ss] => do
    let h ← parseNatFixed hs 2
    let mi ← parseNatFixed ms 2
    let sec ← parseNatFixed ss 2
    if h ≤ 23 ∧ mi ≤ 59 ∧ sec ≤ 59 then some (h, mi, sec) else none
  | _ => none

/-- `datetime.fromisoformat` on the grammar this program feeds it:
`YYYY-MM-DD`, optionally followed by `THH:MM` or `THH:MM:SS`.  Returns
`none` where Python raises `ValueError`. -/
def fromisoformat (s : String) : Option Datetime :=
  match splitOnChar 'T' s.toList with
  | [d] => (parseDatePart d).map (fun p => ⟨p.1, p.2.1, p.2.2, 0, 0, 0⟩)
  | [d, t] => do
    let dp ← parseDatePart d
    let tp ← parseTimePart t
    some ⟨dp.1, dp.2.1, dp.2.2, tp.1, tp.2.1, tp.2.2⟩
  | _ => none

/-- A raw trade record: the four optional date/time string fields read by
`parse_trade_datetime` (`none` models an absent dictionary key) and the
numeric P&L. -/
structure Trade where
  exit_date : Option String
  exit_time : Option String
  entry_date : Option String
  entry_time : Option String
  pnl_usd : Rat
deriving DecidableEq, Repr

/-- `time_str.count(':')`. -/
def countColons (s : String) : Nat :=
  (s.toList.filter (fun c => c = ':')).length

/-- `parse_trade_datetime`: resolves a trade's timestamp.  The date string
is `exit_date` falling back to `entry_date` (then `""`), the time string is
`exit_time` falling back to `entry_time` (then `""`) — each fallback
independent, via nested `dict.get` defaults.  A time string with a number
of colons other than 1 or 2 is ignored and the date string is parsed
alone. -/
def parse_trade_datetime (trade : Trade) : Option Datetime :=
  let date_str := trade.exit_date.getD (trade.entry_date.getD "")
  let time_str := trade.exit_time.getD (trade.entry_time.getD "")
  if date_str = "" then none
  else
    let datetime_str :=
      if time_str ≠ "" then
        let colon_count := countColons time_str
        if colon_count = 1 then date_str ++ "T" ++ time_str ++ ":00"
        else if colon_count = 2 then date_str ++ "T" ++ time_str
        else date_str
      else date_str
    fromisoformat datetime_str

/-- One bucket of the `defaultdict` used by the aggregator: a key and the
values appended to it, in insertion order. -/
def addToBucket (acc : List (Datetime × List Rat)) (k : Datetime) (v : Rat) :
    List (Datetime × List Rat) :=
  match acc with
  | [] => [(k, [v])]
  | (k', vs) :: rest =>
    if k' = k then (k', vs ++ [v]) :: rest else (k', vs) :: addToBucket rest k v

/-- The ordered value list stored under a bucket key (`[]` when absent). -/
def bucketValues (acc : List (Datetime × List Rat)) (k : Datetime) : List Rat :=
  match acc with
  | [] => []
  | (k', vs) :: rest => if k' = k then vs else bucketValues rest k

/-- The grouping loop of the aggregator: inserts every filtered event into
the bucket of its floored timestamp. -/
def aggregateBuckets (filtered : List (Datetime × Rat)) (interval : String) :
    List (Datetime × List Rat) :=
  filtered.foldl (fun acc p => addToBucket acc (get_bucket_key p.1 interval) p.2) []

/-- `filter_and_aggregate_by_timeframe`: filters the event series to the
look-back window, groups by bucket key, keeps each bucket's last value, and
prepends a synthetic starting point when the earliest bucket lies strictly
after the window start. -/
def filter_and_aggregate_by_timeframe (dates : List Datetime) (values : List Rat)
    (timeframe interval : String) (end_date : Datetime) (base_value : Rat) :
    List String × List Rat :=
  let start_date := get_timeframe_range end_date timeframe
  let filtered := (dates.zip values).filter
    (fun p => decide (start_date.le p.1) && decide (p.1.le end_date))
  if filtered = [] then
    ([format_date_label start_date timeframe (some interval),
      format_date_label end_date timeframe (some interval)],
     [base_value, base_value])
  else
    let aggregated := aggregateBuckets filtered interval
    let sorted_buckets := List.insertionSort Datetime.le (aggregated.map Prod.fst)
    let first_bucket := sorted_buckets.headD end_date
    let startLabels : List String :=
      if sorted_buckets ≠ [] ∧ start_date.lt first_bucket then
        [format_date_label start_date timeframe (some interval)]
      else []
    let startData : List Rat :=
      if sorted_buckets ≠ [] ∧ start_date.lt first_bucket then [base_value]
      else []
    (startLabels ++ sorted_buckets.map
       (fun bk => format_date_label bk timeframe (some interval)),
     startData ++ sorted_buckets.map
       (fun bk => (bucketValues aggregated bk).getLastD 0))

/-- Python `round(x, 2)`: round half to even at two decimal places (values
modelled as exact rationals). -/
def roundTo2 (x : Rat) : Rat :=
  let scaled := x * 100
  let f : Int := scaled.floor
  let frac := scaled - f
  let r : Int :=
    if frac < 1/2 then f
    else if 1/2 < frac then f + 1
    else if f % 2 = 0 then f else f + 1
  (r : Rat) / 100

/-- Ordering of optional datetimes used to sort trades by
`parse_trade_datetime`; in the pipeline it is only applied to trades whose
timestamp parses. -/
def optDtLe (a b : Option Datetime) : Prop :=
  match a, b with
  | none, _ => True
  | some _, none => False
  | some x, some y => x.le y

instance (a b : Option Datetime) : Decidable (optDtLe a b) := by
  unfold optDtLe
  match a, b with
  | none, _ => exact inferInstance
  | some _, none => exact inferInstance
  | some _, some _ => exact inferInstance

/-- Sort key relation of `sorted_trades.sort(key=parse_trade_datetime)`. -/
def tradeLe (t1 t2 : Trade) : Prop :=
  optDtLe (parse_trade_datetime t1) (parse_trade_datetime t2)

instance (t1 t2 : Trade) : Decidable (tradeLe t1 t2) := by
  unfold tradeLe; exact inferInstance

instance : IsTrans Trade tradeLe := by
  constructor
  intro a b c hab hbc
  unfold tradeLe optDtLe at *
  match ha : parse_trade_datetime a, hb : parse_trade_datetime b,
        hc : parse_trade_datetime c with
  | none, _, _ => simp
  | some x, some y, some z =>
    simp_all only
    exact Datetime.le_trans hab hbc
  | some _, some _, none => simp_all
  | some _, none, _ => simp_all

instance : IsTotal Trade tradeLe := by
  constructor
  intro a b
  unfold tradeLe optDtLe
  match parse_trade_datetime a, parse_trade_datetime b with
  | none, _ => simp
  | some x, none => simp
  | some x, some y => exact Datetime.le_total x y

/-- Python `max` over a nonempty list of datetimes (keeps the earlier
occurrence on ties); the default is returned only for `[]`. -/
def listMaxD (l : List Datetime) (dflt : Datetime) : Datetime :=
  match l with
  | [] => dflt
  | a :: rest => rest.foldl (fun x y => if x.lt y then y else x) a

/-- `end_date = max(trade_dates) if trade_dates else datetime.now()`. -/
def chartEndDate (trade_dates : List Datetime) (now : Datetime) : Datetime :=
  match trade_dates with
  | [] => now
  | _ => listMaxD trade_dates now

/-- The accumulation loop shared by both chart generators: walks trades in
order keeping a running cumulative P&L, and records a `(date, base + cum)`
point for every trade whose timestamp parses. -/
def cumulativePoints (trades : List Trade) (base_value : Rat) :
    List Datetime × List Rat :=
  let r := trades.foldl
    (fun (acc : Rat × List Datetime × List Rat) trade =>
      let cumulative := acc.1 + trade.pnl_usd
      match parse_trade_datetime trade with
      | some d => (cumulative, acc.2.1 ++ [d], acc.2.2 ++ [base_value + cumulative])
      | none => (cumulative, acc.2.1, acc.2.2))
    (0, [], [])
  (r.2.1, r.2.2)

/-- The return-percentage accumulation loop of `generate_total_return_charts`:
records `(date, cum / denominator * 100)` per parsable trade. -/
def returnPoints (trades : List Trade) (denominator : Rat) :
    List Datetime × List Rat :=
  let r := trades.foldl
    (fun (acc : Rat × List Datetime × List Rat) trade =>
      let cumulative := acc.1 + trade.pnl_usd
      match parse_trade_datetime trade with
      | some d => (cumulative, acc.2.1 ++ [d], acc.2.2 ++ [cumulative / denominator * 100])
      | none => (cumulative, acc.2.1, acc.2.2))
    (0, [], [])
  (r.2.1, r.2.2)

/-- The day-window membership test `start_date <= parse(t) <= end_date`
(with unparsable trades excluded first). -/
def inDayWindow (t : Trade) (start_date end_date : Datetime) : Bool :=
  match parse_trade_datetime t with
  | some d => decide (start_date.le d) && decide (d.le end_date)
  | none => false

/-- The pre-window accumulation loop of both day paths: sums the P&L of
every trade whose parsed timestamp is strictly before `start_date`. -/
def cumulativePnlBefore (trades : List Trade) (start_date : Datetime) : Rat :=
  trades.foldl
    (fun acc t =>
      match parse_trade_datetime t with
      | some d => if d.lt start_date then acc + t.pnl_usd else acc
      | none => acc)
    0

/-- `create_day_chart_data` of `generate_portfolio_value_charts`: the day
timeframe shows intraday portfolio progression starting from the portfolio
value at the beginning of the 24-hour window. -/
def create_day_chart_data_value (sorted_trades : List Trade)
    (end_date : Datetime) (base_value : Rat) : List String × List Rat :=
  let start_date := end_date.subDays 1
  let day_trades := sorted_trades.filter (fun t => inDayWindow t start_date end_date)
  let cumulative_pnl_before_day := cumulativePnlBefore sorted_trades start_date
  let portfolio_value_at_day_start := base_value + cumulative_pnl_before_day
  if day_trades = [] then
    let interval := get_default_interval "day"
    ([format_date_label start_date "day" (some interval),
      format_date_label end_date "day" (some interval)],
     [portfolio_value_at_day_start, portfolio_value_at_day_start])
  else
    let pts := cumulativePoints day_trades portfolio_value_at_day_start
    let interval := get_default_interval "day"
    filter_and_aggregate_by_timeframe pts.1 pts.2 "day" interval end_date
      portfolio_value_at_day_start

/-- `create_day_chart_data` of `generate_total_return_charts`: the day
timeframe shows intraday return as a percentage of the portfolio value at
the start of the 24-hour window; when that value is zero the denominator
falls back to the starting investment if positive, else 1. -/
def create_day_chart_data_return (sorted_trades : List Trade)
    (end_date : Datetime) (starting_investment : Rat) : List String × List Rat :=
  let start_date := end_date.subDays 1
  let day_trades := sorted_trades.filter (fun t => inDayWindow t start_date end_date)
  if day_trades = [] then
    let interval := get_default_interval "day"
    ([format_date_label start_date "day" (some interval),
      format_date_label end_date "day" (some interval)],
     [0, 0])
  else
    let cumulative_pnl_before_day := cumulativePnlBefore sorted_trades start_date
    let pv0 := starting_investment + cumulative_pnl_before_day
    let portfolio_value_at_day_start :=
      if pv0 = 0 then (if 0 < starting_investment then starting_investment else 1)
      else pv0
    let pts := returnPoints day_trades portfolio_value_at_day_start
    let interval := get_default_interval "day"
    let r := filter_and_aggregate_by_timeframe pts.1 pts.2 "day" interval end_date 0
    (r.1, r.2.map roundTo2)

/-- The canonical timeframe list iterated by both generators. -/
def timeframeList : List String :=
  ["day", "week", "month", "quarter", "year", "5year"]

/-- Account configuration: starting balance plus deposit and withdrawal
amounts. -/
structure AccountConfig where
  starting_balance : Rat
  deposits : List Rat
  withdrawals : List Rat
deriving DecidableEq, Repr

/-- `generate_portfolio_value_charts`, reduced to its output series: one
`(timeframe, labels, data)` triple per timeframe.  `now` stands for
`datetime.now()`, consulted only when no trade timestamp parses. -/
def generate_portfolio_value_charts (trades : List Trade) (cfg : AccountConfig)
    (now : Datetime) : List (String × List String × List Rat) :=
  let total_deposits := cfg.deposits.sum
  let total_withdrawals := cfg.withdrawals.sum
  let base_value := cfg.starting_balance + total_deposits - total_withdrawals
  let sorted_trades := List.insertionSort tradeLe
    (trades.filter (fun t => (parse_trade_datetime t).isSome))
  let pts := cumulativePoints sorted_trades base_value
  let trade_dates := pts.1
  let portfolio_values := pts.2
  let end_date := chartEndDate trade_dates now
  timeframeList.map (fun timeframe =>
    if timeframe = "day" then
      (timeframe, create_day_chart_data_value sorted_trades end_date base_value)
    else
      (timeframe,
       filter_and_aggregate_by_timeframe trade_dates portfolio_values timeframe
         (get_default_interval timeframe) end_date base_value))

/-- `generate_total_return_charts`, reduced to its output series.  The
starting investment is substituted with 1 when zero, the generic path is
aggregated with baseline `0` and rounded to two decimals, and the day path
is the special case above. -/
def generate_total_return_charts (trades : List Trade) (cfg : AccountConfig)
    (now : Datetime) : List (String × List String × List Rat) :=
  let total_deposits := cfg.deposits.sum
  let total_withdrawals := cfg.withdrawals.sum
  let si0 := cfg.starting_balance + total_deposits - total_withdrawals
  let starting_investment := if si0 = 0 then 1 else si0
  let sorted_trades := List.insertionSort tradeLe
    (trades.filter (fun t => (parse_trade_datetime t).isSome))
  let pts := returnPoints sorted_trades starting_investment
  let trade_dates := pts.1
  let return_percentages := pts.2
  let end_date := chartEndDate trade_dates now
  timeframeList.map (fun timeframe =>
    if timeframe = "day" then
      (timeframe, create_day_chart_data_return sorted_trades end_date starting_investment)
    else
      let r := filter_and_aggregate_by_timeframe trade_dates return_percentages
        timeframe (get_default_interval timeframe) end_date 0
      (timeframe, (r.1, r.2.map roundTo2)))

set_option maxHeartbeats 1000000

theorem daysFromCivil_eq (y m d : Nat) : daysFromCivil y m d =
    (if m ≤ 2 then y - 1 else y) / 400 * 146097 +
    ((if m ≤ 2 then y - 1 else y) % 400 * 365 +
     (if m ≤ 2 then y - 1 else y) % 400 / 4 -
     (if m ≤ 2 then y - 1 else y) % 400 / 100 +
     ((153 * (if 3 ≤ m then m - 3 else m + 9) + 2) / 5 + d - 1)) := rfl

theorem daysFromCivil_F (y m d : Nat) :
    daysFromCivil y m d =
    365 * (if m ≤ 2 then y - 1 else y) +
      (if m ≤ 2 then y - 1 else y) / 4 -
      (if m ≤ 2 then y - 1 else y) / 100 +
      (if m ≤ 2 then y - 1 else y) / 400 +
      ((153 * (if 3 ≤ m then m - 3 else m + 9) + 2) / 5 + d - 1) := by
  rw [daysFromCivil_eq]
  split_ifs with hm2 hm3 <;> omega

theorem monthLength_two (y : Nat) :
    monthLength y 2 = if (y % 4 = 0 ∧ y % 100 ≠ 0) ∨ y % 400 = 0 then 29 else 28 := by
  by_cases hA : y % 4 = 0 <;> by_cases hB : y % 100 = 0 <;> by_cases hC : y % 400 = 0 <;>
    simp [monthLength, isLeap, hA, hB, hC]

theorem daysFromCivil_march (y : Nat) (h1 : 1 ≤ y) :
    daysFromCivil y 2 (monthLength y 2) + 1 = daysFromCivil y 3 1 := by
  rw [monthLength_two]
  split_ifs with h
  · rcases h with ⟨h4, h100⟩ | h400 <;>
      (rw [daysFromCivil_F, daysFromCivil_F]; norm_num; omega)
  · rw [not_or, not_and_or, not_not] at h
    obtain ⟨h1', h2'⟩ := h
    rcases h1' with h | h <;>
      (rw [daysFromCivil_F, daysFromCivil_F]; norm_num; omega)

theorem daysFromCivil_decrement_month (y m : Nat) (h2 : 2 ≤ m) (h3 : m ≤ 12)
    (h1 : 1 ≤ y) :
    daysFromCivil y (m - 1) (monthLength y (m - 1)) + 1 = daysFromCivil y m 1 := by
  by_cases hm : m = 3
  · subst hm
    exact daysFromCivil_march y h1
  · have hcase : m = 2 ∨ m = 4 ∨ m = 5 ∨ m = 6 ∨ m = 7 ∨ m = 8 ∨ m = 9 ∨ m = 10 ∨
        m = 11 ∨ m = 12 := by omega
    rcases hcase with rfl | rfl | rfl | rfl | rfl | rfl | rfl | rfl | rfl | rfl <;>
      simp only [monthLength, daysFromCivil_F] <;> norm_num

theorem daysFromCivil_ge (y m d : Nat) (h1 : 1 ≤ y) (h2 : 1 ≤ m) (h4 : 1 ≤ d) :
    306 ≤ daysFromCivil y m d := by
  rw [daysFromCivil_eq]
  split_ifs with hm2 hm3 <;> omega

theorem daysFromCivil_decrement_day (y m d : Nat) (hd2 : 2 ≤ d) :
    daysFromCivil y m (d - 1) + 1 = daysFromCivil y m d := by
  rw [daysFromCivil_eq, daysFromCivil_eq]
  split_ifs with hm2 hm3 <;> omega

theorem daysFromCivil_decrement_year (y : Nat) (_hy2 : 2 ≤ y) :
    daysFromCivil (y - 1) 12 31 + 1 = daysFromCivil y 1 1 := by
  rw [daysFromCivil_eq, daysFromCivil_eq]
  norm_num
  omega


theorem Datetime.valid_mk (y m d hh mi s : Nat) :
    (Datetime.mk y m d hh mi s).Valid ↔
      (1 ≤ y ∧ 1 ≤ m ∧ m ≤ 12 ∧ 1 ≤ d ∧ d ≤ monthLength y m ∧
       hh ≤ 23 ∧ mi ≤ 59 ∧ s ≤ 59) := Iff.rfl

theorem Datetime.toDaysNat_mk (y m d hh mi s : Nat) :
    (Datetime.mk y m d hh mi s).toDaysNat = daysFromCivil y m d := rfl

theorem Datetime.weekday_mk (y m d hh mi s : Nat) :
    (Datetime.mk y m d hh mi s).weekday = (daysFromCivil y m d + 2) % 7 := rfl

theorem Datetime.lt_mk (y m d hh mi s y' m' d' hh' mi' s' : Nat) :
    Datetime.lt ⟨y, m, d, hh, mi, s⟩ ⟨y', m', d', hh', mi', s'⟩ ↔
    (y < y' ∨ (y = y' ∧ (m < m' ∨ (m = m' ∧ (d < d' ∨ (d = d' ∧
      (hh < hh' ∨ (hh = hh' ∧ (mi < mi' ∨ (mi = mi' ∧ s < s')))))))))) := Iff.rfl

theorem Datetime.prevDay_mk_d (y m d hh mi s : Nat) (hd : 2 ≤ d) :
    (Datetime.mk y m d hh mi s).prevDay = ⟨y, m, d - 1, hh, mi, s⟩ := by
  simp only [Datetime.prevDay]
  rw [if_pos hd]

theorem Datetime.prevDay_mk_m (y m hh mi s : Nat) (hm : 2 ≤ m) :
    (Datetime.mk y m 1 hh mi s).prevDay = ⟨y, m - 1, monthLength y (m - 1), hh, mi, s⟩ := by
  simp only [Datetime.prevDay]
  rw [if_neg (by omega), if_pos hm]

theorem Datetime.prevDay_mk_y (y hh mi s : Nat) :
    (Datetime.mk y 1 1 hh mi s).prevDay = ⟨y - 1, 12, 31, hh, mi, s⟩ := by
  simp only [Datetime.prevDay]
  rw [if_neg (by omega), if_neg (by omega)]

theorem monthLength_pos (y m : Nat) : 28 ≤ monthLength y m := by
  simp only [monthLength]
  split_ifs <;> omega

theorem daysFromCivil_base : daysFromCivil 1 1 1 = 306 := rfl

theorem Datetime.toDaysNat_ge (dt : Datetime) (h : dt.Valid) : 306 ≤ dt.toDaysNat := by
  obtain ⟨y, m, d, hh, mi, s⟩ := dt
  rw [Datetime.valid_mk] at h
  rw [Datetime.toDaysNat_mk]
  exact daysFromCivil_ge y m d h.1 h.2.1 h.2.2.2.1

theorem Datetime.prevDay_spec (dt : Datetime) (h : dt.Valid)
    (hne : ¬(dt.year = 1 ∧ dt.month = 1 ∧ dt.day = 1)) :
    dt.prevDay.Valid ∧ dt.prevDay.toDaysNat + 1 = dt.toDaysNat ∧
      Datetime.lt dt.prevDay dt := by
  obtain ⟨y, m, d, hh, mi, s⟩ := dt
  rw [Datetime.valid_mk] at h
  obtain ⟨h1, h2, h3, h4, h5, h6, h7, h8⟩ := h
  simp only at hne
  by_cases hd : 2 ≤ d
  · rw [Datetime.prevDay_mk_d y m d hh mi s hd]
    refine ⟨?_, ?_, ?_⟩
    · rw [Datetime.valid_mk]
      exact ⟨h1, h2, h3, by omega, by omega, h6, h7, h8⟩
    · rw [Datetime.toDaysNat_mk, Datetime.toDaysNat_mk]
      exact daysFromCivil_decrement_day y m d hd
    · rw [Datetime.lt_mk]
      omega
  · have hd1 : d = 1 := by omega
    subst hd1
    by_cases hm2 : 2 ≤ m
    · rw [Datetime.prevDay_mk_m y m hh mi s hm2]
      refine ⟨?_, ?_, ?_⟩
      · rw [Datetime.valid_mk]
        have := monthLength_pos y (m - 1)
        exact ⟨h1, by omega, by omega, by omega, le_refl _, h6, h7, h8⟩
      · rw [Datetime.toDaysNat_mk, Datetime.toDaysNat_mk]
        exact daysFromCivil_decrement_month y m hm2 h3 h1
      · rw [Datetime.lt_mk]
        omega
    · have hm1 : m = 1 := by omega
      subst hm1
      have hy : 2 ≤ y := by omega
      rw [Datetime.prevDay_mk_y y hh mi s]
      refine ⟨?_, ?_, ?_⟩
      · rw [Datetime.valid_mk]
        refine ⟨by omega, by omega, by omega, by omega, ?_, h6, h7, h8⟩
        simp [monthLength]
      · rw [Datetime.toDaysNat_mk, Datetime.toDaysNat_mk]
        exact daysFromCivil_decrement_year y hy
      · rw [Datetime.lt_mk]
        omega

theorem Datetime.toDaysNat_base (dt : Datetime)
    (h111 : dt.year = 1 ∧ dt.month = 1 ∧ dt.day = 1) : dt.toDaysNat = 306 := by
  obtain ⟨y, m, d, hh, mi, s⟩ := dt
  obtain ⟨hy, hm, hd⟩ := h111
  simp only at hy hm hd
  subst hy; subst hm; subst hd
  rw [Datetime.toDaysNat_mk]
  exact daysFromCivil_base

theorem Datetime.subDays_zero (dt : Datetime) : dt.subDays 0 = dt := rfl

theorem Datetime.subDays_succ (dt : Datetime) (n : Nat) :
    dt.subDays (n + 1) = dt.prevDay.subDays n := rfl

theorem Datetime.subDays_spec (dt : Datetime) (k : Nat) (h : dt.Valid)
    (hk : k + 306 ≤ dt.toDaysNat) :
    (dt.subDays k).Valid ∧ (dt.subDays k).toDaysNat + k = dt.toDaysNat ∧
      Datetime.le (dt.subDays k) dt := by
  induction k generalizing dt with
  | zero =>
    rw [Datetime.subDays_zero]
    exact ⟨h, by omega, Or.inr rfl⟩
  | succ n ih =>
    have hne : ¬(dt.year = 1 ∧ dt.month = 1 ∧ dt.day = 1) := by
      intro h111
      have := Datetime.toDaysNat_base dt h111
      omega
    obtain ⟨hv, heq, hlt⟩ := Datetime.prevDay_spec dt h hne
    have hk' : n + 306 ≤ dt.prevDay.toDaysNat := by omega
    obtain ⟨hv', heq', hle'⟩ := ih dt.prevDay hv hk'
    rw [Datetime.subDays_succ]
    refine ⟨hv', by omega, Datetime.le_trans hle' (Or.inl hlt)⟩

theorem Datetime.weekday_bound (dt : Datetime) (h : dt.Valid) :
    dt.weekday + 306 ≤ dt.toDaysNat ∧ dt.weekday ≤ 6 := by
  have := Datetime.toDaysNat_ge dt h
  unfold Datetime.weekday
  omega

theorem Datetime.le_mk (y m d hh mi s y' m' d' hh' mi' s' : Nat) :
    Datetime.le ⟨y, m, d, hh, mi, s⟩ ⟨y', m', d', hh', mi', s'⟩ ↔
    (y < y' ∨ (y = y' ∧ (m < m' ∨ (m = m' ∧ (d < d' ∨ (d = d' ∧
      (hh < hh' ∨ (hh = hh' ∧ (mi < mi' ∨ (mi = mi' ∧ s ≤ s')))))))))) := by
  unfold Datetime.le
  rw [Datetime.lt_mk, Datetime.mk.injEq]
  omega

theorem get_bucket_key_30min (d : Datetime) :
    get_bucket_key d "30min" =
      ⟨d.year, d.month, d.day, d.hour, (d.minute / 30) * 30, 0⟩ := by
  simp [get_bucket_key]

theorem get_bucket_key_daily (d : Datetime) :
    get_bucket_key d "daily" = ⟨d.year, d.month, d.day, 0, 0, 0⟩ := by
  simp [get_bucket_key]

theorem get_bucket_key_weekly (d : Datetime) :
    get_bucket_key d "weekly" =
      ⟨(d.subDays d.weekday).year, (d.subDays d.weekday).month,
       (d.subDays d.weekday).day, 0, 0, 0⟩ := by
  simp [get_bucket_key]

theorem get_bucket_key_monthly (d : Datetime) :
    get_bucket_key d "monthly" = ⟨d.year, d.month, 1, 0, 0, 0⟩ := by
  simp [get_bucket_key]

theorem get_bucket_key_quarterly (d : Datetime) :
    get_bucket_key d "quarterly" =
      ⟨d.year, ((d.month - 1) / 3) * 3 + 1, 1, 0, 0, 0⟩ := by
  simp [get_bucket_key]

theorem get_bucket_key_yearly (d : Datetime) :
    get_bucket_key d "yearly" = ⟨d.year, 1, 1, 0, 0, 0⟩ := by
  simp [get_bucket_key]

theorem get_bucket_key_default (d : Datetime) (iv : String)
    (h1 : iv ≠ "30min") (h2 : iv ≠ "daily") (h3 : iv ≠ "weekly")
    (h4 : iv ≠ "monthly") (h5 : iv ≠ "quarterly") (h6 : iv ≠ "yearly") :
    get_bucket_key d iv = ⟨d.year, d.month, d.day, 0, 0, 0⟩ := by
  simp [get_bucket_key, h1, h2, h3, h4, h5, h6]

theorem zeroTime_le (x : Datetime) :
    Datetime.le ⟨x.year, x.month, x.day, 0, 0, 0⟩ x := by
  obtain ⟨y, m, d, hh, mi, s⟩ := x
  dsimp only
  rw [Datetime.le_mk]
  omega

theorem zeroTime_valid (x : Datetime) (h : x.Valid) :
    Datetime.Valid ⟨x.year, x.month, x.day, 0, 0, 0⟩ := by
  obtain ⟨y, m, d, hh, mi, s⟩ := x
  dsimp only
  rw [Datetime.valid_mk] at h ⊢
  have := monthLength_pos y m
  omega

theorem weekly_floor_weekday (d : Datetime) (h : d.Valid) :
    (d.subDays d.weekday).weekday = 0 := by
  have hw := Datetime.weekday_bound d h
  obtain ⟨hs1, hs2, hs3⟩ := Datetime.subDays_spec d d.weekday h (by omega)
  unfold Datetime.weekday at hw hs2 ⊢
  omega

theorem get_bucket_key_le (d : Datetime) (h : d.Valid) (iv : String) :
    Datetime.le (get_bucket_key d iv) d := by
  by_cases h1 : iv = "30min"
  · subst h1
    rw [get_bucket_key_30min]
    obtain ⟨y, m, dd, hh, mi, s⟩ := d
    dsimp only
    rw [Datetime.le_mk]
    omega
  · by_cases h2 : iv = "daily"
    · subst h2
      rw [get_bucket_key_daily]
      exact zeroTime_le d
    · by_cases h3 : iv = "weekly"
      · subst h3
        rw [get_bucket_key_weekly]
        have hw := Datetime.weekday_bound d h
        obtain ⟨hs1, hs2, hs3⟩ := Datetime.subDays_spec d d.weekday h (by omega)
        exact Datetime.le_trans (zeroTime_le _) hs3
      · by_cases h4 : iv = "monthly"
        · subst h4
          rw [get_bucket_key_monthly]
          obtain ⟨y, m, dd, hh, mi, s⟩ := d
          rw [Datetime.valid_mk] at h
          dsimp only
          rw [Datetime.le_mk]
          omega
        · by_cases h5 : iv = "quarterly"
          · subst h5
            rw [get_bucket_key_quarterly]
            obtain ⟨y, m, dd, hh, mi, s⟩ := d
            rw [Datetime.valid_mk] at h
            dsimp only
            rw [Datetime.le_mk]
            omega
          · by_cases h6 : iv = "yearly"
            · subst h6
              rw [get_bucket_key_yearly]
              obtain ⟨y, m, dd, hh, mi, s⟩ := d
              rw [Datetime.valid_mk] at h
              dsimp only
              rw [Datetime.le_mk]
              omega
            · rw [get_bucket_key_default d iv h1 h2 h3 h4 h5 h6]
              exact zeroTime_le d

theorem get_bucket_key_idem (d : Datetime) (h : d.Valid) (iv : String) :
    get_bucket_key (get_bucket_key d iv) iv = get_bucket_key d iv := by
  by_cases h1 : iv = "30min"
  · subst h1
    rw [get_bucket_key_30min, get_bucket_key_30min]
    obtain ⟨y, m, dd, hh, mi, s⟩ := d
    dsimp only
    rw [Datetime.eq_iff]
    dsimp only
    omega
  · by_cases h2 : iv = "daily"
    · subst h2
      rw [get_bucket_key_daily, get_bucket_key_daily]
    · by_cases h3 : iv = "weekly"
      · subst h3
        rw [get_bucket_key_weekly]
        rw [get_bucket_key_weekly]
        have hBw : Datetime.weekday
            ⟨(d.subDays d.weekday).year, (d.subDays d.weekday).month,
             (d.subDays d.weekday).day, 0, 0, 0⟩ = 0 := by
          have hr : Datetime.weekday
              ⟨(d.subDays d.weekday).year, (d.subDays d.weekday).month,
               (d.subDays d.weekday).day, 0, 0, 0⟩ =
              (d.subDays d.weekday).weekday := rfl
          rw [hr]
          exact weekly_floor_weekday d h
        rw [hBw, Datetime.subDays_zero]
      · by_cases h4 : iv = "monthly"
        · subst h4
          rw [get_bucket_key_monthly, get_bucket_key_monthly]
        · by_cases h5 : iv = "quarterly"
          · subst h5
            rw [get_bucket_key_quarterly, get_bucket_key_quarterly]
            obtain ⟨y, m, dd, hh, mi, s⟩ := d
            dsimp only
            rw [Datetime.eq_iff]
            dsimp only
            omega
          · by_cases h6 : iv = "yearly"
            · subst h6
              rw [get_bucket_key_yearly, get_bucket_key_yearly]
            · rw [get_bucket_key_default d iv h1 h2 h3 h4 h5 h6,
                  get_bucket_key_default _ iv h1 h2 h3 h4 h5 h6]

/-- C10: for every valid timestamp and every interval string, the bucket key
function is deflationary (`get_bucket_key d i ≤ d`) and idempotent; hence an
in-window event's bucket key can fall strictly before the window start, in
which case no synthetic leading point is prepended and the single output
label denotes the bucket time before the window start. -/
theorem c10_bucket_key_deflationary_idempotent :
    (∀ (d : Datetime), d.Valid → ∀ (interval : String),
       Datetime.le (get_bucket_key d interval) d ∧
       get_bucket_key (get_bucket_key d interval) interval = get_bucket_key d interval) ∧
    (Datetime.lt (get_bucket_key ⟨2025, 3, 10, 18, 0, 0⟩ "daily")
        (get_timeframe_range ⟨2025, 3, 17, 14, 0, 0⟩ "week") ∧
     Datetime.le (get_timeframe_range ⟨2025, 3, 17, 14, 0, 0⟩ "week")
        ⟨2025, 3, 10, 18, 0, 0⟩ ∧
     filter_and_aggregate_by_timeframe [⟨2025, 3, 10, 18, 0, 0⟩] [5] "week" "daily"
        ⟨2025, 3, 17, 14, 0, 0⟩ 0 = (["03/10"], [5])) :=
  ⟨fun d hd interval => ⟨get_bucket_key_le d hd interval, get_bucket_key_idem d hd interval⟩,
   by decide, by decide, by decide⟩

/-- Witness for C10 at a concrete valid datetime and interval. -/
theorem c10_bucket_key_witness :
    Datetime.Valid ⟨2025, 3, 17, 14, 47, 0⟩ ∧
    (Datetime.le (get_bucket_key ⟨2025, 3, 17, 14, 47, 0⟩ "weekly")
        ⟨2025, 3, 17, 14, 47, 0⟩ ∧
     get_bucket_key (get_bucket_key ⟨2025, 3, 17, 14, 47, 0⟩ "weekly") "weekly" =
        get_bucket_key ⟨2025, 3, 17, 14, 47, 0⟩ "weekly") :=
  ⟨by decide,
   c10_bucket_key_deflationary_idempotent.1 ⟨2025, 3, 17, 14, 47, 0⟩ (by decide) "weekly"⟩

theorem addToBucket_ne_nil (acc : List (Datetime × List Rat)) (k : Datetime) (v : Rat) :
    addToBucket acc k v ≠ [] := by
  match acc with
  | [] => simp [addToBucket]
  | (k', vs) :: rest =>
    simp only [addToBucket]
    split_ifs <;> simp

theorem foldl_addToBucket_ne_nil (l : List (Datetime × Rat)) (iv : String)
    (acc : List (Datetime × List Rat)) (h : acc ≠ []) :
    l.foldl (fun a p => addToBucket a (get_bucket_key p.1 iv) p.2) acc ≠ [] := by
  induction l generalizing acc with
  | nil => exact h
  | cons p rest ih =>
    rw [List.foldl_cons]
    exact ih _ (addToBucket_ne_nil _ _ _)

theorem aggregateBuckets_ne_nil (filtered : List (Datetime × Rat)) (iv : String)
    (h : filtered ≠ []) : aggregateBuckets filtered iv ≠ [] := by
  match filtered with
  | p :: rest =>
    show List.foldl _ _ (p :: rest) ≠ []
    rw [List.foldl_cons]
    exact foldl_addToBucket_ne_nil rest iv _ (addToBucket_ne_nil _ _ _)

theorem filterAgg_shape (dates : List Datetime) (values : List Rat)
    (timeframe interval : String) (end_date : Datetime) (base_value : Rat) :
    (filter_and_aggregate_by_timeframe dates values timeframe interval end_date
        base_value).1.length =
      (filter_and_aggregate_by_timeframe dates values timeframe interval end_date
        base_value).2.length ∧
    1 ≤ (filter_and_aggregate_by_timeframe dates values timeframe interval end_date
        base_value).1.length ∧
    ((dates.zip values).filter
        (fun p => decide ((get_timeframe_range end_date timeframe).le p.1) &&
                  decide (p.1.le end_date)) = [] →
      (filter_and_aggregate_by_timeframe dates values timeframe interval end_date
        base_value).1.length = 2) := by
  simp only [filter_and_aggregate_by_timeframe]
  by_cases hf : (dates.zip values).filter
      (fun p => decide ((get_timeframe_range end_date timeframe).le p.1) &&
                decide (p.1.le end_date)) = []
  · rw [if_pos hf]
    simp
  · rw [if_neg hf]
    have hne := aggregateBuckets_ne_nil _ interval hf
    have hs : List.insertionSort Datetime.le
        ((aggregateBuckets ((dates.zip values).filter
          (fun p => decide ((get_timeframe_range end_date timeframe).le p.1) &&
                    decide (p.1.le end_date))) interval).map Prod.fst) ≠ [] := by
      intro hemp
      have hperm := List.perm_insertionSort Datetime.le
        ((aggregateBuckets ((dates.zip values).filter
          (fun p => decide ((get_timeframe_range end_date timeframe).le p.1) &&
                    decide (p.1.le end_date))) interval).map Prod.fst)
      rw [hemp] at hperm
      have := hperm.symm.eq_nil
      simp at this
      exact hne this
    refine ⟨?_, ?_, fun hcontra => absurd hcontra hf⟩
    · split_ifs <;> simp
    · split_ifs with hc
      · simp only [List.length_append, List.length_cons, List.length_map,
          List.length_nil]
        omega
      · simp only [List.nil_append, List.length_map]
        have := List.length_pos.mpr hs
        omega

/-- C1 counterexample: a single in-window event whose daily bucket key falls
at or before the week-window start yields a one-point series, refuting
`len(labels) == len(values) >= 2` for every input. -/
theorem c1_counterexample :
    ¬(2 ≤ (filter_and_aggregate_by_timeframe [⟨2025, 3, 10, 18, 0, 0⟩] [5] "week"
        "daily" ⟨2025, 3, 17, 14, 0, 0⟩ 0).1.length) := by
  decide

/-- C1 (amended): the aggregated series always has equally many labels and
values and at least one point, and exactly two points when no event falls in
the window; the original `>= 2` bound is refuted by `c1_counterexample`. -/
theorem c1_shape_invariant (dates : List Datetime) (values : List Rat)
    (timeframe interval : String) (end_date : Datetime) (base_value : Rat) :
    (filter_and_aggregate_by_timeframe dates values timeframe interval end_date
        base_value).1.length =
      (filter_and_aggregate_by_timeframe dates values timeframe interval end_date
        base_value).2.length ∧
    1 ≤ (filter_and_aggregate_by_timeframe dates values timeframe interval end_date
        base_value).1.length ∧
    ((dates.zip values).filter
        (fun p => decide ((get_timeframe_range end_date timeframe).le p.1) &&
                  decide (p.1.le end_date)) = [] →
      (filter_and_aggregate_by_timeframe dates values timeframe interval end_date
        base_value).1.length = 2) :=
  filterAgg_shape dates values timeframe interval end_date base_value

/-- Witness for C1's amended theorem at a concrete empty input. -/
theorem c1_shape_invariant_witness :
    (([] : List Datetime).zip ([] : List Rat)).filter
        (fun p => decide ((get_timeframe_range ⟨2025, 3, 17, 14, 0, 0⟩ "day").le p.1) &&
                  decide (p.1.le ⟨2025, 3, 17, 14, 0, 0⟩)) = [] ∧
    (filter_and_aggregate_by_timeframe [] [] "day" "30min"
        ⟨2025, 3, 17, 14, 0, 0⟩ 42).1.length = 2 :=
  ⟨by decide,
   (c1_shape_invariant [] [] "day" "30min" ⟨2025, 3, 17, 14, 0, 0⟩ 42).2.2 (by decide)⟩

theorem filterAgg_of_empty (dates : List Datetime) (values : List Rat)
    (timeframe interval : String) (end_date : Datetime) (base_value : Rat)
    (hf : (dates.zip values).filter
        (fun p => decide ((get_timeframe_range end_date timeframe).le p.1) &&
                  decide (p.1.le end_date)) = []) :
    filter_and_aggregate_by_timeframe dates values timeframe interval end_date
        base_value =
      ([format_date_label (get_timeframe_range end_date timeframe) timeframe
          (some interval),
        format_date_label end_date timeframe (some interval)],
       [base_value, base_value]) := by
  simp only [filter_and_aggregate_by_timeframe]
  rw [if_pos hf]

theorem filterAgg_depends_only_on_window (dates : List Datetime) (values : List Rat)
    (timeframe interval : String) (end_date : Datetime) (base_value : Rat) :
    filter_and_aggregate_by_timeframe dates values timeframe interval end_date
        base_value =
      filter_and_aggregate_by_timeframe
        (((dates.zip values).filter
          (fun p => decide ((get_timeframe_range end_date timeframe).le p.1) &&
                    decide (p.1.le end_date))).map Prod.fst)
        (((dates.zip values).filter
          (fun p => decide ((get_timeframe_range end_date timeframe).le p.1) &&
                    decide (p.1.le end_date))).map Prod.snd)
        timeframe interval end_date base_value := by
  have hz : ((((dates.zip values).filter
      (fun p => decide ((get_timeframe_range end_date timeframe).le p.1) &&
                decide (p.1.le end_date))).map Prod.fst).zip
      (((dates.zip values).filter
      (fun p => decide ((get_timeframe_range end_date timeframe).le p.1) &&
                decide (p.1.le end_date))).map Prod.snd)) =
      ((dates.zip values).filter
      (fun p => decide ((get_timeframe_range end_date timeframe).le p.1) &&
                decide (p.1.le end_date))) :=
    Eq.symm (List.zip_of_prod rfl rfl)
  have hidem : (((dates.zip values).filter
      (fun p => decide ((get_timeframe_range end_date timeframe).le p.1) &&
                decide (p.1.le end_date))).filter
      (fun p => decide ((get_timeframe_range end_date timeframe).le p.1) &&
                decide (p.1.le end_date))) =
      ((dates.zip values).filter
      (fun p => decide ((get_timeframe_range end_date timeframe).le p.1) &&
                decide (p.1.le end_date))) :=
    List.filter_eq_self.mpr (fun a ha => (List.mem_filter.mp ha).2)
  conv_rhs => rw [filter_and_aggregate_by_timeframe]
  rw [hz, hidem]
  conv_lhs => rw [filter_and_aggregate_by_timeframe]

/-- C9: when no event satisfies `start <= t <= end`, the aggregator returns
exactly the 2-point flat series at the baseline with the window-boundary
labels; it never returns an empty labels or values list; and events outside
the inclusive window never affect the output (the result depends only on the
in-window sublist). -/
theorem c9_out_of_range_never_affects (dates : List Datetime) (values : List Rat)
    (timeframe interval : String) (end_date : Datetime) (base_value : Rat) :
    ((dates.zip values).filter
        (fun p => decide ((get_timeframe_range end_date timeframe).le p.1) &&
                  decide (p.1.le end_date)) = [] →
      filter_and_aggregate_by_timeframe dates values timeframe interval end_date
          base_value =
        ([format_date_label (get_timeframe_range end_date timeframe) timeframe
            (some interval),
          format_date_label end_date timeframe (some interval)],
         [base_value, base_value])) ∧
    (filter_and_aggregate_by_timeframe dates values timeframe interval end_date
        base_value).1 ≠ [] ∧
    (filter_and_aggregate_by_timeframe dates values timeframe interval end_date
        base_value).2 ≠ [] ∧
    filter_and_aggregate_by_timeframe dates values timeframe interval end_date
        base_value =
      filter_and_aggregate_by_timeframe
        (((dates.zip values).filter
          (fun p => decide ((get_timeframe_range end_date timeframe).le p.1) &&
                    decide (p.1.le end_date))).map Prod.fst)
        (((dates.zip values).filter
          (fun p => decide ((get_timeframe_range end_date timeframe).le p.1) &&
                    decide (p.1.le end_date))).map Prod.snd)
        timeframe interval end_date base_value := by
  obtain ⟨hlen, hpos, _⟩ :=
    filterAgg_shape dates values timeframe interval end_date base_value
  refine ⟨filterAgg_of_empty dates values timeframe interval end_date base_value,
    ?_, ?_,
    filterAgg_depends_only_on_window dates values timeframe interval end_date
      base_value⟩
  · exact List.ne_nil_of_length_pos (by omega)
  · exact List.ne_nil_of_length_pos (by omega)

/-- Witness for C9 at a concrete input with an out-of-window event. -/
theorem c9_out_of_range_witness :
    (([⟨2020, 1, 1, 0, 0, 0⟩] : List Datetime).zip ([7] : List Rat)).filter
        (fun p => decide ((get_timeframe_range ⟨2025, 3, 17, 14, 0, 0⟩ "day").le p.1) &&
                  decide (p.1.le ⟨2025, 3, 17, 14, 0, 0⟩)) = [] ∧
    filter_and_aggregate_by_timeframe [⟨2020, 1, 1, 0, 0, 0⟩] [7] "day" "30min"
        ⟨2025, 3, 17, 14, 0, 0⟩ 42 =
      ([format_date_label (get_timeframe_range ⟨2025, 3, 17, 14, 0, 0⟩ "day") "day"
          (some "30min"),
        format_date_label ⟨2025, 3, 17, 14, 0, 0⟩ "day" (some "30min")],
       [42, 42]) :=
  ⟨by decide,
   (c9_out_of_range_never_affects [⟨2020, 1, 1, 0, 0, 0⟩] [7] "day" "30min"
      ⟨2025, 3, 17, 14, 0, 0⟩ 42).1 (by decide)⟩

theorem bucketValues_addToBucket (acc : List (Datetime × List Rat))
    (k : Datetime) (v : Rat) (b : Datetime) :
    bucketValues (addToBucket acc k v) b =
      if k = b then bucketValues acc b ++ [v] else bucketValues acc b := by
  induction acc with
  | nil =>
    simp only [addToBucket, bucketValues]
    by_cases hb : k = b <;> simp [hb, bucketValues]
  | cons hd tl ih =>
    obtain ⟨k', vs⟩ := hd
    by_cases hk : k' = k
    · subst hk
      simp only [addToBucket, if_pos rfl, bucketValues]
      by_cases hb : k' = b <;> simp [hb]
    · simp only [addToBucket, if_neg hk, bucketValues]
      by_cases hb : k' = b
      · subst hb
        have hkb : ¬(k = k') := fun hcontra => hk hcontra.symm
        simp [hkb, bucketValues]
      · simp only [if_neg hb, ih]

theorem bucketValues_foldl (l : List (Datetime × Rat)) (iv : String)
    (acc : List (Datetime × List Rat)) (b : Datetime) :
    bucketValues (l.foldl (fun a p => addToBucket a (get_bucket_key p.1 iv) p.2) acc) b =
      bucketValues acc b ++
        (l.filter (fun p => decide (get_bucket_key p.1 iv = b))).map Prod.snd := by
  induction l generalizing acc with
  | nil => simp
  | cons p rest ih =>
    rw [List.foldl_cons, ih, bucketValues_addToBucket, List.filter_cons]
    by_cases hk : get_bucket_key p.1 iv = b
    · simp [hk]
    · simp [hk]

theorem bucketValues_aggregateBuckets (filtered : List (Datetime × Rat))
    (iv : String) (b : Datetime) :
    bucketValues (aggregateBuckets filtered iv) b =
      (filtered.filter (fun p => decide (get_bucket_key p.1 iv = b))).map Prod.snd := by
  have h := bucketValues_foldl filtered iv [] b
  simpa [bucketValues] using h

/-- C8: a bucket's stored value list is exactly the chronological sequence of
in-window event values whose floored timestamp equals the bucket key, so the
emitted value (its last element) is the last such event's value — as the
concrete run shows, it is neither the bucket's sum nor its average. -/
theorem c8_last_value_per_bucket :
    (∀ (filtered : List (Datetime × Rat)) (interval : String) (b : Datetime),
       bucketValues (aggregateBuckets filtered interval) b =
         (filtered.filter
           (fun p => decide (get_bucket_key p.1 interval = b))).map Prod.snd) ∧
    (∀ (filtered : List (Datetime × Rat)) (interval : String) (b : Datetime),
       (bucketValues (aggregateBuckets filtered interval) b).getLastD 0 =
         ((filtered.filter
           (fun p => decide (get_bucket_key p.1 interval = b))).map
             Prod.snd).getLastD 0) ∧
    (filter_and_aggregate_by_timeframe
        [⟨2025, 3, 17, 10, 1, 0⟩, ⟨2025, 3, 17, 10, 7, 0⟩, ⟨2025, 3, 17, 10, 22, 0⟩]
        [1, 2, 3] "day" "30min" ⟨2025, 3, 17, 14, 0, 0⟩ 0 =
      (["14:00", "10:00"], [0, 3]) ∧
     (3 : Rat) ≠ 1 + 2 + 3 ∧ (3 : Rat) ≠ (1 + 2 + 3) / 3) :=
  ⟨bucketValues_aggregateBuckets,
   fun filtered interval b => by rw [bucketValues_aggregateBuckets],
   by decide, by norm_num, by norm_num⟩

theorem mem_keys_addToBucket (acc : List (Datetime × List Rat)) (k : Datetime)
    (v : Rat) (x : Datetime) :
    x ∈ (addToBucket acc k v).map Prod.fst ↔ x ∈ acc.map Prod.fst ∨ x = k := by
  induction acc with
  | nil => simp [addToBucket]
  | cons hd tl ih =>
    obtain ⟨k', vs⟩ := hd
    simp only [addToBucket]
    by_cases hk : k' = k
    · subst hk
      rw [if_pos rfl]
      simp only [List.map_cons, List.mem_cons]
      tauto
    · rw [if_neg hk]
      simp only [List.map_cons, List.mem_cons, ih]
      tauto

theorem mem_keys_foldl (l : List (Datetime × Rat)) (iv : String)
    (acc : List (Datetime × List Rat)) (x : Datetime) :
    x ∈ (l.foldl (fun a p => addToBucket a (get_bucket_key p.1 iv) p.2) acc).map
        Prod.fst ↔
      x ∈ acc.map Prod.fst ∨ ∃ p ∈ l, get_bucket_key p.1 iv = x := by
  induction l generalizing acc with
  | nil => simp
  | cons p rest ih =>
    rw [List.foldl_cons, ih, mem_keys_addToBucket]
    simp only [List.mem_cons]
    constructor
    · rintro ((h | rfl) | ⟨q, hq, hqx⟩)
      · exact Or.inl h
      · exact Or.inr ⟨p, Or.inl rfl, rfl⟩
      · exact Or.inr ⟨q, Or.inr hq, hqx⟩
    · rintro (h | ⟨q, (rfl | hq), hqx⟩)
      · exact Or.inl (Or.inl h)
      · exact Or.inl (Or.inr hqx.symm)
      · exact Or.inr ⟨q, hq, hqx⟩

theorem mem_keys_aggregateBuckets (filtered : List (Datetime × Rat)) (iv : String)
    (x : Datetime) :
    x ∈ (aggregateBuckets filtered iv).map Prod.fst ↔
      ∃ p ∈ filtered, get_bucket_key p.1 iv = x := by
  have h := mem_keys_foldl filtered iv [] x
  simpa using h

theorem sort_headD_min (l : List Datetime) (e : Datetime) (hl : l ≠ []) :
    (∀ x ∈ l, Datetime.le ((List.insertionSort Datetime.le l).headD e) x) ∧
    ((List.insertionSort Datetime.le l).headD e) ∈ l := by
  have hs := List.sorted_insertionSort Datetime.le l
  have hp := List.perm_insertionSort Datetime.le l
  match hsort : List.insertionSort Datetime.le l with
  | [] =>
    rw [hsort] at hp
    exact absurd hp.symm.eq_nil hl
  | a :: rest =>
    rw [hsort] at hs hp
    rw [List.sorted_cons] at hs
    refine ⟨?_, hp.mem_iff.mp (List.mem_cons_self a rest)⟩
    intro x hx
    have hx' : x ∈ a :: rest := hp.symm.mem_iff.mp hx
    rcases List.mem_cons.mp hx' with rfl | hxr
    · exact Or.inr rfl
    · exact hs.1 x hxr

theorem filterAgg_of_nonempty (dates : List Datetime) (values : List Rat)
    (timeframe interval : String) (end_date : Datetime) (base_value : Rat)
    (hf : (dates.zip values).filter
        (fun p => decide ((get_timeframe_range end_date timeframe).le p.1) &&
                  decide (p.1.le end_date)) ≠ []) :
    filter_and_aggregate_by_timeframe dates values timeframe interval end_date
        base_value =
      ((if Datetime.lt (get_timeframe_range end_date timeframe)
            ((List.insertionSort Datetime.le
              ((aggregateBuckets ((dates.zip values).filter
                (fun p => decide ((get_timeframe_range end_date timeframe).le p.1) &&
                          decide (p.1.le end_date))) interval).map Prod.fst)).headD
              end_date)
        then [format_date_label (get_timeframe_range end_date timeframe) timeframe
               (some interval)]
        else []) ++
       (List.insertionSort Datetime.le
         ((aggregateBuckets ((dates.zip values).filter
           (fun p => decide ((get_timeframe_range end_date timeframe).le p.1) &&
                     decide (p.1.le end_date))) interval).map Prod.fst)).map
         (fun bk => format_date_label bk timeframe (some interval)),
       (if Datetime.lt (get_timeframe_range end_date timeframe)
            ((List.insertionSort Datetime.le
              ((aggregateBuckets ((dates.zip values).filter
                (fun p => decide ((get_timeframe_range end_date timeframe).le p.1) &&
                          decide (p.1.le end_date))) interval).map Prod.fst)).headD
              end_date)
        then [base_value]
        else []) ++
       (List.insertionSort Datetime.le
         ((aggregateBuckets ((dates.zip values).filter
           (fun p => decide ((get_timeframe_range end_date timeframe).le p.1) &&
                     decide (p.1.le end_date))) interval).map Prod.fst)).map
         (fun bk => (bucketValues (aggregateBuckets ((dates.zip values).filter
           (fun p => decide ((get_timeframe_range end_date timeframe).le p.1) &&
                     decide (p.1.le end_date))) interval) bk).getLastD 0)) := by
  have hkeys : List.insertionSort Datetime.le
      ((aggregateBuckets ((dates.zip values).filter
        (fun p => decide ((get_timeframe_range end_date timeframe).le p.1) &&
                  decide (p.1.le end_date))) interval).map Prod.fst) ≠ [] := by
    intro hemp
    have hperm := List.perm_insertionSort Datetime.le
      ((aggregateBuckets ((dates.zip values).filter
        (fun p => decide ((get_timeframe_range end_date timeframe).le p.1) &&
                  decide (p.1.le end_date))) interval).map Prod.fst)
    rw [hemp] at hperm
    have hmapnil := hperm.symm.eq_nil
    simp only [List.map_eq_nil_iff] at hmapnil
    exact aggregateBuckets_ne_nil _ interval hf hmapnil
  simp only [filter_and_aggregate_by_timeframe]
  rw [if_neg hf]
  have hcond : ∀ (c : Prop), (List.insertionSort Datetime.le
      ((aggregateBuckets ((dates.zip values).filter
        (fun p => decide ((get_timeframe_range end_date timeframe).le p.1) &&
                  decide (p.1.le end_date))) interval).map Prod.fst) ≠ [] ∧ c) ↔ c :=
    fun c => and_iff_right hkeys
  rw [if_congr (hcond _) rfl rfl, if_congr (hcond _) rfl rfl]

/-- C7: in the nonempty-window case, the head of the sorted bucket list is
the earliest populated bucket key (a bucket key of some in-window event, and
a lower bound of all of them); the output prepends the synthetic point
`(label(start), baseline)` exactly when that earliest key lies strictly
after the window start, and otherwise consists of the bucket points alone. -/
theorem c7_synthetic_leading_point (dates : List Datetime) (values : List Rat)
    (timeframe interval : String) (end_date : Datetime) (base_value : Rat)
    (hf : (dates.zip values).filter
        (fun p => decide ((get_timeframe_range end_date timeframe).le p.1) &&
                  decide (p.1.le end_date)) ≠ []) :
    ((∃ p ∈ (dates.zip values).filter
        (fun p => decide ((get_timeframe_range end_date timeframe).le p.1) &&
                  decide (p.1.le end_date)),
        get_bucket_key p.1 interval =
          (List.insertionSort Datetime.le
            ((aggregateBuckets ((dates.zip values).filter
              (fun p => decide ((get_timeframe_range end_date timeframe).le p.1) &&
                        decide (p.1.le end_date))) interval).map Prod.fst)).headD
            end_date) ∧
     (∀ p ∈ (dates.zip values).filter
        (fun p => decide ((get_timeframe_range end_date timeframe).le p.1) &&
                  decide (p.1.le end_date)),
        Datetime.le
          ((List.insertionSort Datetime.le
            ((aggregateBuckets ((dates.zip values).filter
              (fun p => decide ((get_timeframe_range end_date timeframe).le p.1) &&
                        decide (p.1.le end_date))) interval).map Prod.fst)).headD
            end_date)
          (get_bucket_key p.1 interval))) ∧
    (Datetime.lt (get_timeframe_range end_date timeframe)
        ((List.insertionSort Datetime.le
          ((aggregateBuckets ((dates.zip values).filter
            (fun p => decide ((get_timeframe_range end_date timeframe).le p.1) &&
                      decide (p.1.le end_date))) interval).map Prod.fst)).headD
          end_date) →
      filter_and_aggregate_by_timeframe dates values timeframe interval end_date
          base_value =
        (format_date_label (get_timeframe_range end_date timeframe) timeframe
            (some interval) ::
          (List.insertionSort Datetime.le
            ((aggregateBuckets ((dates.zip values).filter
              (fun p => decide ((get_timeframe_range end_date timeframe).le p.1) &&
                        decide (p.1.le end_date))) interval).map Prod.fst)).map
            (fun bk => format_date_label bk timeframe (some interval)),
         base_value ::
          (List.insertionSort Datetime.le
            ((aggregateBuckets ((dates.zip values).filter
              (fun p => decide ((get_timeframe_range end_date timeframe).le p.1) &&
                        decide (p.1.le end_date))) interval).map Prod.fst)).map
            (fun bk => (bucketValues (aggregateBuckets ((dates.zip values).filter
              (fun p => decide ((get_timeframe_range end_date timeframe).le p.1) &&
                        decide (p.1.le end_date))) interval) bk).getLastD 0))) ∧
    (¬ Datetime.lt (get_timeframe_range end_date timeframe)
        ((List.insertionSort Datetime.le
          ((aggregateBuckets ((dates.zip values).filter
            (fun p => decide ((get_timeframe_range end_date timeframe).le p.1) &&
                      decide (p.1.le end_date))) interval).map Prod.fst)).headD
          end_date) →
      filter_and_aggregate_by_timeframe dates values timeframe interval end_date
          base_value =
        ((List.insertionSort Datetime.le
            ((aggregateBuckets ((dates.zip values).filter
              (fun p => decide ((get_timeframe_range end_date timeframe).le p.1) &&
                        decide (p.1.le end_date))) interval).map Prod.fst)).map
            (fun bk => format_date_label bk timeframe (some interval)),
         (List.insertionSort Datetime.le
            ((aggregateBuckets ((dates.zip values).filter
              (fun p => decide ((get_timeframe_range end_date timeframe).le p.1) &&
                        decide (p.1.le end_date))) interval).map Prod.fst)).map
            (fun bk => (bucketValues (aggregateBuckets ((dates.zip values).filter
              (fun p => decide ((get_timeframe_range end_date timeframe).le p.1) &&
                        decide (p.1.le end_date))) interval) bk).getLastD 0))) := by
  have hmap : ((aggregateBuckets ((dates.zip values).filter
      (fun p => decide ((get_timeframe_range end_date timeframe).le p.1) &&
                decide (p.1.le end_date))) interval).map Prod.fst) ≠ [] := by
    simp only [ne_eq, List.map_eq_nil_iff]
    exact aggregateBuckets_ne_nil _ interval hf
  obtain ⟨hmin, hmem⟩ := sort_headD_min _ end_date hmap
  refine ⟨⟨?_, ?_⟩, ?_, ?_⟩
  · exact (mem_keys_aggregateBuckets _ interval _).mp hmem
  · intro p hp
    exact hmin _ ((mem_keys_aggregateBuckets _ interval _).mpr ⟨p, hp, rfl⟩)
  · intro hlt
    rw [filterAgg_of_nonempty dates values timeframe interval end_date base_value hf]
    rw [if_pos hlt, if_pos hlt]
    simp only [List.singleton_append]
  · intro hlt
    rw [filterAgg_of_nonempty dates values timeframe interval end_date base_value hf]
    rw [if_neg hlt, if_neg hlt]
    simp only [List.nil_append]

/-- Witness for C7 at a concrete input whose earliest bucket key lies after
the window start. -/
theorem c7_synthetic_leading_point_witness :
    (([⟨2025, 3, 17, 12, 0, 0⟩] : List Datetime).zip ([1150] : List Rat)).filter
        (fun p => decide ((get_timeframe_range ⟨2025, 3, 17, 14, 0, 0⟩ "day").le p.1) &&
                  decide (p.1.le ⟨2025, 3, 17, 14, 0, 0⟩)) ≠ [] ∧
    Datetime.lt (get_timeframe_range ⟨2025, 3, 17, 14, 0, 0⟩ "day")
        ((List.insertionSort Datetime.le
          ((aggregateBuckets ((([⟨2025, 3, 17, 12, 0, 0⟩] : List Datetime).zip
              ([1150] : List Rat)).filter
            (fun p => decide ((get_timeframe_range ⟨2025, 3, 17, 14, 0, 0⟩ "day").le p.1) &&
                      decide (p.1.le ⟨2025, 3, 17, 14, 0, 0⟩))) "30min").map
            Prod.fst)).headD ⟨2025, 3, 17, 14, 0, 0⟩) ∧
    filter_and_aggregate_by_timeframe [⟨2025, 3, 17, 12, 0, 0⟩] [1150] "day" "30min"
        ⟨2025, 3, 17, 14, 0, 0⟩ 1100 =
      (format_date_label (get_timeframe_range ⟨2025, 3, 17, 14, 0, 0⟩ "day") "day"
          (some "30min") ::
        (List.insertionSort Datetime.le
          ((aggregateBuckets ((([⟨2025, 3, 17, 12, 0, 0⟩] : List Datetime).zip
              ([1150] : List Rat)).filter
            (fun p => decide ((get_timeframe_range ⟨2025, 3, 17, 14, 0, 0⟩ "day").le p.1) &&
                      decide (p.1.le ⟨2025, 3, 17, 14, 0, 0⟩))) "30min").map
            Prod.fst)).map
          (fun bk => format_date_label bk "day" (some "30min")),
       1100 ::
        (List.insertionSort Datetime.le
          ((aggregateBuckets ((([⟨2025, 3, 17, 12, 0, 0⟩] : List Datetime).zip
              ([1150] : List Rat)).filter
            (fun p => decide ((get_timeframe_range ⟨2025, 3, 17, 14, 0, 0⟩ "day").le p.1) &&
                      decide (p.1.le ⟨2025, 3, 17, 14, 0, 0⟩))) "30min").map
            Prod.fst)).map
          (fun bk => (bucketValues (aggregateBuckets
            ((([⟨2025, 3, 17, 12, 0, 0⟩] : List Datetime).zip ([1150] : List Rat)).filter
              (fun p => decide ((get_timeframe_range ⟨2025, 3, 17, 14, 0, 0⟩ "day").le p.1) &&
                        decide (p.1.le ⟨2025, 3, 17, 14, 0, 0⟩))) "30min") bk).getLastD 0)) :=
  ⟨by decide, by decide,
   (c7_synthetic_leading_point [⟨2025, 3, 17, 12, 0, 0⟩] [1150] "day" "30min"
      ⟨2025, 3, 17, 14, 0, 0⟩ 1100 (by decide)).2.1 (by decide)⟩

set_option maxRecDepth 100000

theorem cumulativePnlBefore_foldl (l : List Trade) (s : Datetime) (a : Rat) :
    l.foldl (fun acc t =>
      match parse_trade_datetime t with
      | some d => if d.lt s then acc + t.pnl_usd else acc
      | none => acc) a =
    a + ((l.filter (fun t =>
      match parse_trade_datetime t with
      | some d => decide (d.lt s)
      | none => false)).map Trade.pnl_usd).sum := by
  induction l generalizing a with
  | nil => simp
  | cons t rest ih =>
    rw [List.foldl_cons, List.filter_cons]
    rcases hp : parse_trade_datetime t with _ | d
    · simp only [hp]
      rw [ih]
      simp
    · simp only [hp]
      by_cases hd : d.lt s
      · rw [if_pos hd, ih]
        simp [hd]
        ring
      · rw [if_neg hd, ih]
        simp [hd]

theorem cumulativePnlBefore_eq_sum (trades : List Trade) (s : Datetime) :
    cumulativePnlBefore trades s =
      ((trades.filter (fun t =>
        match parse_trade_datetime t with
        | some d => decide (d.lt s)
        | none => false)).map Trade.pnl_usd).sum := by
  have h := cumulativePnlBefore_foldl trades s 0
  simpa [cumulativePnlBefore] using h

/-- C6: the baseline fed to the day-path aggregator is the global baseline
plus the summed P&L of every trade strictly before the 24-hour window
start; in the concrete scenario of the claim (events at `t-48h` with delta
+100 and `t-2h` with delta +50, reference end `t`, global baseline 1000)
the recomputed baseline is 1100, the final point is 1150, and the `t-48h`
event contributes no bucket to the day output. -/
theorem c6_day_baseline_recomputation :
    (∀ (sorted_trades : List Trade) (start_date : Datetime) (base_value : Rat),
       base_value + cumulativePnlBefore sorted_trades start_date =
         base_value + ((sorted_trades.filter (fun t =>
           match parse_trade_datetime t with
           | some d => decide (d.lt start_date)
           | none => false)).map Trade.pnl_usd).sum) ∧
    create_day_chart_data_value
        [⟨some "2025-03-15", some "14:00", none, none, 100⟩,
         ⟨some "2025-03-17", some "12:00", none, none, 50⟩]
        ⟨2025, 3, 17, 14, 0, 0⟩ 1000 =
      (["14:00", "12:00"], [1100, 1150]) :=
  ⟨fun st s b => by rw [cumulativePnlBefore_eq_sum],
   by with_unfolding_all rfl⟩

theorem get_default_interval_day : get_default_interval "day" = "30min" := by decide

/-- C2 (amended): with no event in the 24-hour window, the portfolio-value
day path returns the 2-point flat line at the recomputed pre-window
baseline (global baseline plus P&L accumulated strictly before the window
start), while the total-return day path returns the 2-point flat line at 0,
the return series' global baseline, regardless of pre-window events. -/
theorem c2_empty_day_window_flat (sorted_trades : List Trade)
    (end_date : Datetime) (base_value starting_investment : Rat)
    (hf : sorted_trades.filter
      (fun t => inDayWindow t (end_date.subDays 1) end_date) = []) :
    create_day_chart_data_value sorted_trades end_date base_value =
      ([format_date_label (end_date.subDays 1) "day" (some "30min"),
        format_date_label end_date "day" (some "30min")],
       [base_value + cumulativePnlBefore sorted_trades (end_date.subDays 1),
        base_value + cumulativePnlBefore sorted_trades (end_date.subDays 1)]) ∧
    create_day_chart_data_return sorted_trades end_date starting_investment =
      ([format_date_label (end_date.subDays 1) "day" (some "30min"),
        format_date_label end_date "day" (some "30min")],
       [0, 0]) := by
  constructor
  · simp only [create_day_chart_data_value]
    rw [if_pos hf, get_default_interval_day]
  · simp only [create_day_chart_data_return]
    rw [if_pos hf, get_default_interval_day]

/-- C2 counterexample: in the total-return day path with a pre-window trade
of P&L 100 and starting investment 1000 and no in-window trade, the code
returns the flat line `[0, 0]`, not the flat line at the recomputed
baseline `0 + (100/1000)*100 = 10` that the claim prescribes for both
metrics. -/
theorem c2_counterexample :
    (create_day_chart_data_return [⟨some "2025-03-10", none, none, none, 100⟩]
        ⟨2025, 3, 17, 12, 0, 0⟩ 1000).2 = [0, 0] ∧
    ((0 : Rat) ≠ 0 + 100 / 1000 * 100 ∧
     ([0, 0] : List Rat) ≠ [0 + 100 / 1000 * 100, 0 + 100 / 1000 * 100]) :=
  ⟨by with_unfolding_all rfl, by norm_num, by norm_num⟩

/-- Witness for C2's amended theorem on a concrete input with a pre-window
trade and an empty day window. -/
theorem c2_empty_day_window_witness :
    ([⟨some "2025-03-10", none, none, none, 100⟩] : List Trade).filter
      (fun t => inDayWindow t ((⟨2025, 3, 17, 12, 0, 0⟩ : Datetime).subDays 1)
        ⟨2025, 3, 17, 12, 0, 0⟩) = [] ∧
    create_day_chart_data_value [⟨some "2025-03-10", none, none, none, 100⟩]
        ⟨2025, 3, 17, 12, 0, 0⟩ 1000 =
      ([format_date_label ((⟨2025, 3, 17, 12, 0, 0⟩ : Datetime).subDays 1) "day"
          (some "30min"),
        format_date_label ⟨2025, 3, 17, 12, 0, 0⟩ "day" (some "30min")],
       [1000 + cumulativePnlBefore [⟨some "2025-03-10", none, none, none, 100⟩]
          ((⟨2025, 3, 17, 12, 0, 0⟩ : Datetime).subDays 1),
        1000 + cumulativePnlBefore [⟨some "2025-03-10", none, none, none, 100⟩]
          ((⟨2025, 3, 17, 12, 0, 0⟩ : Datetime).subDays 1)]) :=
  ⟨by decide,
   (c2_empty_day_window_flat [⟨some "2025-03-10", none, none, none, 100⟩]
      ⟨2025, 3, 17, 12, 0, 0⟩ 1000 1000 (by decide)).1⟩

/-- C4 (amended): in the total-return day path with a nonempty day window,
the percentage denominator is the recomputed pre-window baseline (starting
investment plus P&L strictly before the window start) when it is nonzero;
a zero baseline is replaced by the starting investment only when that is
positive, and by 1 otherwise (including when the starting investment is
negative, which refutes the original claim's "or 1 only if zero"). -/
theorem c4_day_return_denominator (sorted_trades : List Trade)
    (end_date : Datetime) (starting_investment : Rat)
    (hf : sorted_trades.filter
      (fun t => inDayWindow t (end_date.subDays 1) end_date) ≠ []) :
    create_day_chart_data_return sorted_trades end_date starting_investment =
      (let baseline := starting_investment +
        ((sorted_trades.filter (fun t =>
          match parse_trade_datetime t with
          | some d => decide (d.lt (end_date.subDays 1))
          | none => false)).map Trade.pnl_usd).sum
       let denominator := if baseline = 0 then
          (if 0 < starting_investment then starting_investment else 1)
         else baseline
       let pts := returnPoints
         (sorted_trades.filter (fun t => inDayWindow t (end_date.subDays 1) end_date))
         denominator
       let r := filter_and_aggregate_by_timeframe pts.1 pts.2 "day" "30min" end_date 0
       (r.1, r.2.map roundTo2)) := by
  simp only [create_day_chart_data_return]
  rw [if_neg hf, get_default_interval_day, cumulativePnlBefore_eq_sum]

/-- C4 counterexample: with starting investment −500 (withdrawals exceeding
deposits), a pre-window trade of +500 makes the recomputed baseline 0; the
code substitutes 1 (since −500 is not positive) and reports an intraday
return of 5000%, whereas the claim prescribes the nonzero starting
investment −500 as denominator, i.e. −10%. -/
theorem c4_counterexample :
    create_day_chart_data_return
        [⟨some "2025-03-10", none, none, none, 500⟩,
         ⟨some "2025-03-17", some "10:00", none, none, 50⟩]
        ⟨2025, 3, 17, 12, 0, 0⟩ (-500) =
      (["12:00", "10:00"], [0, 5000]) ∧
    (5000 : Rat) ≠ 50 / (-500) * 100 :=
  ⟨by with_unfolding_all rfl, by norm_num⟩

/-- Witness for C4's amended theorem at a concrete nonempty day window. -/
theorem c4_day_return_denominator_witness :
    ([⟨some "2025-03-10", none, none, none, 500⟩,
      ⟨some "2025-03-17", some "10:00", none, none, 50⟩] : List Trade).filter
      (fun t => inDayWindow t ((⟨2025, 3, 17, 12, 0, 0⟩ : Datetime).subDays 1)
        ⟨2025, 3, 17, 12, 0, 0⟩) ≠ [] ∧
    create_day_chart_data_return
        [⟨some "2025-03-10", none, none, none, 500⟩,
         ⟨some "2025-03-17", some "10:00", none, none, 50⟩]
        ⟨2025, 3, 17, 12, 0, 0⟩ 1000 =
      (let baseline := (1000 : Rat) +
        ((([⟨some "2025-03-10", none, none, none, 500⟩,
            ⟨some "2025-03-17", some "10:00", none, none, 50⟩] : List Trade).filter
          (fun t =>
            match parse_trade_datetime t with
            | some d => decide (d.lt ((⟨2025, 3, 17, 12, 0, 0⟩ : Datetime).subDays 1))
            | none => false)).map Trade.pnl_usd).sum
       let denominator := if baseline = 0 then
          (if 0 < (1000 : Rat) then (1000 : Rat) else 1)
         else baseline
       let pts := returnPoints
         (([⟨some "2025-03-10", none, none, none, 500⟩,
            ⟨some "2025-03-17", some "10:00", none, none, 50⟩] : List Trade).filter
           (fun t => inDayWindow t ((⟨2025, 3, 17, 12, 0, 0⟩ : Datetime).subDays 1)
             ⟨2025, 3, 17, 12, 0, 0⟩))
         denominator
       let r := filter_and_aggregate_by_timeframe pts.1 pts.2 "day" "30min"
         ⟨2025, 3, 17, 12, 0, 0⟩ 0
       (r.1, r.2.map roundTo2)) :=
  ⟨by decide,
   c4_day_return_denominator
     [⟨some "2025-03-10", none, none, none, 500⟩,
      ⟨some "2025-03-17", some "10:00", none, none, 50⟩]
     ⟨2025, 3, 17, 12, 0, 0⟩ 1000 (by decide)⟩

/-- Second definition following the claim's words, for refinement
comparison only: resolve the timestamp from the exit date+time pair as a
unit, falling back to the entry date+time pair as a unit when the exit date
is absent. -/
def parse_trade_datetime_unit_spec (trade : Trade) : Option Datetime :=
  let pair :=
    match trade.exit_date with
    | some ds => (ds, trade.exit_time.getD "")
    | none => (trade.entry_date.getD "", trade.entry_time.getD "")
  let date_str := pair.1
  let time_str := pair.2
  if date_str = "" then none
  else
    let datetime_str :=
      if time_str ≠ "" then
        let colon_count := countColons time_str
        if colon_count = 1 then date_str ++ "T" ++ time_str ++ ":00"
        else if colon_count = 2 then date_str ++ "T" ++ time_str
        else date_str
      else date_str
    fromisoformat datetime_str

theorem splitOnCharAux_no_sep (sep : Char) (cs : List Char)
    (h : ∀ c ∈ cs, c ≠ sep) (acc : List Char) :
    splitOnCharAux sep cs acc = [acc.reverse ++ cs] := by
  induction cs generalizing acc with
  | nil => simp [splitOnCharAux]
  | cons c rest ih =>
    have hc : c ≠ sep := h c (List.mem_cons_self c rest)
    simp only [splitOnCharAux, if_neg hc]
    rw [ih (fun x hx => h x (List.mem_cons_of_mem c hx))]
    simp

theorem splitOnChar_no_sep (sep : Char) (cs : List Char)
    (h : ∀ c ∈ cs, c ≠ sep) : splitOnChar sep cs = [cs] := by
  have := splitOnCharAux_no_sep sep cs h []
  simpa [splitOnChar] using this

theorem splitOnCharAux_chars (sep : Char) (cs : List Char) :
    ∀ (acc : List Char) (x : Char), (x ∈ cs ∨ x ∈ acc) →
      x = sep ∨ ∃ p ∈ splitOnCharAux sep cs acc, x ∈ p := by
  induction cs with
  | nil =>
    intro acc x hx
    rcases hx with hx | hx
    · simp at hx
    · exact Or.inr ⟨acc.reverse, by simp [splitOnCharAux], by simpa using hx⟩
  | cons c rest ih =>
    intro acc x hx
    by_cases hc : c = sep
    · subst hc
      simp only [splitOnCharAux, if_pos rfl]
      rcases hx with hx | hx
      · rcases List.mem_cons.mp hx with rfl | hxr
        · exact Or.inl rfl
        · rcases ih [] x (Or.inl hxr) with h | ⟨p, hp, hxp⟩
          · exact Or.inl h
          · exact Or.inr ⟨p, List.mem_cons_of_mem _ hp, hxp⟩
      · exact Or.inr ⟨acc.reverse, List.mem_cons_self _ _, by simpa using hx⟩
    · simp only [splitOnCharAux, if_neg hc]
      rcases hx with hx | hx
      · rcases List.mem_cons.mp hx with rfl | hxr
        · exact ih (x :: acc) x (Or.inr (List.mem_cons_self _ _))
        · exact ih (c :: acc) x (Or.inl hxr)
      · exact ih (c :: acc) x (Or.inr (List.mem_cons_of_mem _ hx))

theorem splitOnChar_chars (sep : Char) (cs : List Char) (x : Char) (hx : x ∈ cs) :
    x = sep ∨ ∃ p ∈ splitOnChar sep cs, x ∈ p :=
  splitOnCharAux_chars sep cs [] x (Or.inl hx)

theorem parseNatFixed_digits (cs : List Char) (w n : Nat)
    (h : parseNatFixed cs w = some n) : ∀ c ∈ cs, c.isDigit := by
  unfold parseNatFixed at h
  split_ifs at h with hcond
  · intro c hc
    have := hcond.2
    rw [List.all_eq_true] at this
    exact this c hc

theorem parseDatePart_no_T (cs : List Char) (y m d : Nat)
    (h : parseDatePart cs = some (y, m, d)) : ∀ x ∈ cs, x ≠ 'T' := by
  intro x hx
  unfold parseDatePart at h
  rcases hchar : splitOnChar '-' cs with _ | ⟨ys, _ | ⟨ms, _ | ⟨ds, _ | _⟩⟩⟩ <;>
    rw [hchar] at h <;> try simp at h
  rcases hys : parseNatFixed ys 4 with _ | yv <;> rw [hys] at h <;> try simp at h
  rcases hms : parseNatFixed ms 2 with _ | mv <;> rw [hms] at h <;> try simp at h
  rcases hds : parseNatFixed ds 2 with _ | dv <;> rw [hds] at h <;> try simp at h
  rcases splitOnChar_chars '-' cs x hx with rfl | ⟨p, hp, hxp⟩
  · decide
  · rw [hchar] at hp
    have hdig : x.isDigit := by
      rcases List.mem_cons.mp hp with rfl | hp2
      · exact parseNatFixed_digits _ _ _ hys x hxp
      · rcases List.mem_cons.mp hp2 with rfl | hp3
        · exact parseNatFixed_digits _ _ _ hms x hxp
        · rcases List.mem_cons.mp hp3 with rfl | hp4
          · exact parseNatFixed_digits _ _ _ hds x hxp
          · simp at hp4
    intro hT
    subst hT
    simp [Char.isDigit] at hdig

theorem fromisoformat_pure_date (s : String) (y m d : Nat)
    (h : parseDatePart s.toList = some (y, m, d)) :
    fromisoformat s = some ⟨y, m, d, 0, 0, 0⟩ := by
  unfold fromisoformat
  rw [splitOnChar_no_sep 'T' s.toList (parseDatePart_no_T s.toList y m d h)]
  dsimp only
  rw [h]
  simp

/-- C3 (amended): the date and time strings are resolved independently
(exit field falling back to entry field, per field, not as a pair); when
the resolved time string is empty or has a number of colons other than 1
or 2 it is ignored and the date string alone is parsed; and a bare
`YYYY-MM-DD` date string parses to midnight of that date. -/
theorem c3_parse_trade_datetime_resolution :
    (∀ t : Trade, parse_trade_datetime t = parse_trade_datetime
        ⟨some (t.exit_date.getD (t.entry_date.getD "")),
         some (t.exit_time.getD (t.entry_time.getD "")), none, none, t.pnl_usd⟩) ∧
    (∀ t : Trade, (t.exit_time.getD (t.entry_time.getD "") = "" ∨
        (countColons (t.exit_time.getD (t.entry_time.getD "")) ≠ 1 ∧
         countColons (t.exit_time.getD (t.entry_time.getD "")) ≠ 2)) →
      parse_trade_datetime t =
        fromisoformat (t.exit_date.getD (t.entry_date.getD ""))) ∧
    (∀ (s : String) (y m d : Nat), parseDatePart s.toList = some (y, m, d) →
      fromisoformat s = some ⟨y, m, d, 0, 0, 0⟩) := by
  refine ⟨fun t => rfl, fun t ht => ?_, fromisoformat_pure_date⟩
  unfold parse_trade_datetime
  by_cases hds : t.exit_date.getD (t.entry_date.getD "") = ""
  · rw [if_pos hds, hds]
    decide
  · rw [if_neg hds]
    rcases ht with hts | ⟨h1, h2⟩
    · rw [hts]
      simp
    · by_cases hts : t.exit_time.getD (t.entry_time.getD "") = ""
      · rw [hts]
        simp
      · simp [hts, h1, h2]

/-- C3 counterexample: a trade with `entry_date`, `entry_time` and
`exit_time` but no `exit_date` mixes the entry date with the exit time
(15:30), while the claim's unit fallback to the entry pair would give
10:00. -/
theorem c3_counterexample :
    parse_trade_datetime ⟨none, some "15:30", some "2025-01-02", some "10:00", 0⟩ =
      some ⟨2025, 1, 2, 15, 30, 0⟩ ∧
    parse_trade_datetime_unit_spec
        ⟨none, some "15:30", some "2025-01-02", some "10:00", 0⟩ =
      some ⟨2025, 1, 2, 10, 0, 0⟩ ∧
    parse_trade_datetime ⟨none, some "15:30", some "2025-01-02", some "10:00", 0⟩ ≠
      parse_trade_datetime_unit_spec
        ⟨none, some "15:30", some "2025-01-02", some "10:00", 0⟩ :=
  ⟨by decide, by decide, by decide⟩

/-- Witness for C3's amended theorem: a malformed time string (no colons)
is ignored and the date parses to midnight. -/
theorem c3_parse_trade_datetime_witness :
    (countColons (((⟨some "2025-01-02", some "bad", none, none, 0⟩ : Trade)).exit_time.getD
        ((⟨some "2025-01-02", some "bad", none, none, 0⟩ : Trade).entry_time.getD "")) ≠ 1 ∧
     countColons (((⟨some "2025-01-02", some "bad", none, none, 0⟩ : Trade)).exit_time.getD
        ((⟨some "2025-01-02", some "bad", none, none, 0⟩ : Trade).entry_time.getD "")) ≠ 2) ∧
    parse_trade_datetime (⟨some "2025-01-02", some "bad", none, none, 0⟩ : Trade) =
      fromisoformat "2025-01-02" :=
  ⟨⟨by decide, by decide⟩,
   c3_parse_trade_datetime_resolution.2.1
     ⟨some "2025-01-02", some "bad", none, none, 0⟩
     (Or.inr ⟨by decide, by decide⟩)⟩

set_option maxRecDepth 1000000

theorem chartEndDate_of_ne (td : List Datetime) (n1 n2 : Datetime) (h : td ≠ []) :
    chartEndDate td n1 = chartEndDate td n2 := by
  cases td with
  | nil => exact absurd rfl h
  | cons a l => rfl

theorem cumulativePoints_foldl_dates (l : List Trade) (b : Rat)
    (acc : Rat × List Datetime × List Rat) :
    (l.foldl (fun (acc : Rat × List Datetime × List Rat) trade =>
      let cumulative := acc.1 + trade.pnl_usd
      match parse_trade_datetime trade with
      | some d => (cumulative, acc.2.1 ++ [d], acc.2.2 ++ [b + cumulative])
      | none => (cumulative, acc.2.1, acc.2.2)) acc).2.1 =
      acc.2.1 ++ l.filterMap parse_trade_datetime := by
  induction l generalizing acc with
  | nil => simp
  | cons t rest ih =>
    rw [List.foldl_cons, List.filterMap_cons]
    rcases hp : parse_trade_datetime t with _ | d
    · simp only [hp]
      rw [ih]
    · simp only [hp]
      rw [ih]
      simp

theorem cumulativePoints_dates (trades : List Trade) (b : Rat) :
    (cumulativePoints trades b).1 = trades.filterMap parse_trade_datetime := by
  have h := cumulativePoints_foldl_dates trades b (0, [], [])
  simpa [cumulativePoints] using h

theorem returnPoints_foldl_dates (l : List Trade) (si : Rat)
    (acc : Rat × List Datetime × List Rat) :
    (l.foldl (fun (acc : Rat × List Datetime × List Rat) trade =>
      let cumulative := acc.1 + trade.pnl_usd
      match parse_trade_datetime trade with
      | some d => (cumulative, acc.2.1 ++ [d], acc.2.2 ++ [cumulative / si * 100])
      | none => (cumulative, acc.2.1, acc.2.2)) acc).2.1 =
      acc.2.1 ++ l.filterMap parse_trade_datetime := by
  induction l generalizing acc with
  | nil => simp
  | cons t rest ih =>
    rw [List.foldl_cons, List.filterMap_cons]
    rcases hp : parse_trade_datetime t with _ | d
    · simp only [hp]
      rw [ih]
    · simp only [hp]
      rw [ih]
      simp

theorem returnPoints_dates (trades : List Trade) (si : Rat) :
    (returnPoints trades si).1 = trades.filterMap parse_trade_datetime := by
  have h := returnPoints_foldl_dates trades si (0, [], [])
  simpa [returnPoints] using h

theorem parsable_mem_dates (trades : List Trade) (t : Trade)
    (ht : t ∈ trades) (hs : (parse_trade_datetime t).isSome = true) :
    (List.insertionSort tradeLe
      (trades.filter (fun t => (parse_trade_datetime t).isSome))).filterMap
      parse_trade_datetime ≠ [] := by
  obtain ⟨d, hd⟩ := Option.isSome_iff_exists.mp hs
  intro hemp
  have hmem : t ∈ List.insertionSort tradeLe
      (trades.filter (fun t => (parse_trade_datetime t).isSome)) := by
    rw [List.mem_insertionSort]
    exact List.mem_filter.mpr ⟨ht, hs⟩
  have : d ∈ (List.insertionSort tradeLe
      (trades.filter (fun t => (parse_trade_datetime t).isSome))).filterMap
      parse_trade_datetime :=
    List.mem_filterMap.mpr ⟨t, hmem, hd⟩
  rw [hemp] at this
  simp at this

/-- C5 (amended): whenever at least one trade has a parsable timestamp, both
chart pipelines are pure functions of the trades and account configuration —
the `datetime.now()` argument is immaterial.  (With no parsable timestamp
the reference end date is the invocation time, refuted by
`c5_counterexample`.) -/
theorem c5_determinism (trades : List Trade) (cfg : AccountConfig)
    (h : ∃ t ∈ trades, (parse_trade_datetime t).isSome = true)
    (n1 n2 : Datetime) :
    generate_portfolio_value_charts trades cfg n1 =
      generate_portfolio_value_charts trades cfg n2 ∧
    generate_total_return_charts trades cfg n1 =
      generate_total_return_charts trades cfg n2 := by
  obtain ⟨t, ht, hs⟩ := h
  have hdts := parsable_mem_dates trades t ht hs
  constructor
  · have hne : (cumulativePoints
        (List.insertionSort tradeLe
          (trades.filter (fun t => (parse_trade_datetime t).isSome)))
        (cfg.starting_balance + cfg.deposits.sum - cfg.withdrawals.sum)).1 ≠ [] := by
      rw [cumulativePoints_dates]
      exact hdts
    simp only [generate_portfolio_value_charts]
    rw [chartEndDate_of_ne _ n1 n2 hne]
  · have hne : (returnPoints
        (List.insertionSort tradeLe
          (trades.filter (fun t => (parse_trade_datetime t).isSome)))
        (if cfg.starting_balance + cfg.deposits.sum - cfg.withdrawals.sum = 0 then 1
         else cfg.starting_balance + cfg.deposits.sum - cfg.withdrawals.sum)).1 ≠ [] := by
      rw [returnPoints_dates]
      exact hdts
    simp only [generate_total_return_charts]
    rw [chartEndDate_of_ne _ n1 n2 hne]

/-- C5 counterexample: with an empty trade list the reference end date is
`datetime.now()`, so two invocations at different times produce different
labels. -/
theorem c5_counterexample :
    generate_portfolio_value_charts [] ⟨0, [], []⟩ ⟨2025, 3, 17, 10, 0, 0⟩ ≠
      generate_portfolio_value_charts [] ⟨0, [], []⟩ ⟨2025, 3, 17, 11, 0, 0⟩ := by
  with_unfolding_all decide

/-- Witness for C5's amended theorem at a concrete input with one parsable
trade and two different invocation times. -/
theorem c5_determinism_witness :
    (∃ t ∈ ([⟨some "2025-03-15", some "14:00", none, none, 100⟩] : List Trade),
       (parse_trade_datetime t).isSome = true) ∧
    generate_portfolio_value_charts
        [⟨some "2025-03-15", some "14:00", none, none, 100⟩] ⟨1000, [], []⟩
        ⟨2025, 3, 17, 10, 0, 0⟩ =
      generate_portfolio_value_charts
        [⟨some "2025-03-15", some "14:00", none, none, 100⟩] ⟨1000, [], []⟩
        ⟨2030, 1, 1, 0, 0, 0⟩ :=
  ⟨by decide,
   (c5_determinism [⟨some "2025-03-15", some "14:00", none, none, 100⟩]
      ⟨1000, [], []⟩ (by decide) ⟨2025, 3, 17, 10, 0, 0⟩ ⟨2030, 1, 1, 0, 0, 0⟩).1⟩
